import Mathlib

set_option autoImplicit false

/-! # vpp-probe: agent configuration retrieval and CLI text extraction

A shallow embedding of `vpp/agent/config.go` and `vpp/cli.go`.

Go values are modelled as follows.

* A Go pointer `*T` is `Option T` (`none` is `nil`).
* A Go function returning `(v, error)` whose value is discarded on error is
  `Except GoError v`; `retrieveConfig`, whose two results are both observed, returns the
  pair `Option Config × Option GoError`.
* A run-time panic (nil pointer dereference) is the `Except.error` of `Except GoPanic _`.
* Slices are lists; `append(s, x)` is `s ++ [x]`.
* Logging has no effect on results and is omitted.

Code that lives outside the repository (the model registry of `go.ligato.io/vpp-agent`,
`encoding/json`, the remote command executor) is taken as a parameter: see `Env`, `Handler`
and `CliExecutor`.
-/

namespace VppProbe

/-- Go `error` values, reduced to their message. -/
abbrev GoError := String

/-- The `json.RawMessage` type: the undecoded JSON text of a value. -/
abbrev RawMessage := String

/-- Run-time panics that the embedded functions can raise. -/
inductive GoPanic where
  | nilPointerDereference
deriving DecidableEq, Repr

/-! ## External protobuf value types

Only the fields read by the embedded code are kept, plus enough content to tell values apart.
-/

/-- The `vpp_interfaces.Interface_Type` enumeration, a Go `int32`. -/
abbrev vpp_interfaces.Interface_Type := Int

/-- The `vpp_interfaces.Interface` message. -/
structure vpp_interfaces.Interface where
  Name : String
  Typ : vpp_interfaces.Interface_Type
deriving DecidableEq, Repr

/-- The `linux_interfaces.Interface` message. -/
structure linux_interfaces.Interface where
  Name : String
deriving DecidableEq, Repr

/-- The `vpp_l2.XConnectPair` message. -/
structure vpp_l2.XConnectPair where
  ReceiveInterface : String
  TransmitInterface : String
deriving DecidableEq, Repr

/-- The `vpp_ipsec.TunnelProtection` message. -/
structure vpp_ipsec.TunnelProtection where
  Interface : String
deriving DecidableEq, Repr

/-- The `vpp_ipsec.SecurityAssociation` message. -/
structure vpp_ipsec.SecurityAssociation where
  Index : Nat
deriving DecidableEq, Repr

/-- The `vpp_ipsec.SecurityPolicyDatabase` message. -/
structure vpp_ipsec.SecurityPolicyDatabase where
  Index : Nat
deriving DecidableEq, Repr

/-! ## Data model of `vpp/agent/config.go` -/

/-- The `kvdata` struct: one raw record of a dump. `Metadata` (`map[string]interface{}`) is an
association list from field name to the JSON text of the field; `Origin` is the integer
`api.ValueOrigin`. -/
structure kvdata where
  Key : String
  Value : RawMessage
  Metadata : List (String × String)
  Origin : Int
deriving DecidableEq, Repr

/-- The `LinuxInterface` struct (embedded `kvdata` plus decoded `Value`). -/
structure LinuxInterface where
  kvdata : kvdata
  Value : Option linux_interfaces.Interface
deriving DecidableEq, Repr

/-- The `VppInterface` struct. -/
structure VppInterface where
  kvdata : kvdata
  Value : Option vpp_interfaces.Interface
deriving DecidableEq, Repr

/-- The `VppL2XConnect` struct. -/
structure VppL2XConnect where
  kvdata : kvdata
  Value : Option vpp_l2.XConnectPair
deriving DecidableEq, Repr

/-- The `VppIPSecTunProtect` struct. -/
structure VppIPSecTunProtect where
  kvdata : kvdata
  Value : Option vpp_ipsec.TunnelProtection
deriving DecidableEq, Repr

/-- The `VppIPSecSA` struct. -/
structure VppIPSecSA where
  kvdata : kvdata
  Value : Option vpp_ipsec.SecurityAssociation
deriving DecidableEq, Repr

/-- The `VppIPSecSPD` struct. -/
structure VppIPSecSPD where
  kvdata : kvdata
  Value : Option vpp_ipsec.SecurityPolicyDatabase
deriving DecidableEq, Repr

/-- The anonymous `VPP` struct of `Config`. -/
structure Config.VPPPart where
  Interfaces : List VppInterface
  L2XConnects : List VppL2XConnect
  IPSecTunProtects : List VppIPSecTunProtect
  IPSecSAs : List VppIPSecSA
  IPSecSPDs : List VppIPSecSPD
deriving DecidableEq, Repr

/-- The anonymous `Linux` struct of `Config`. -/
structure Config.LinuxPart where
  Interfaces : List LinuxInterface
deriving DecidableEq, Repr

/-- The `Config` struct. -/
structure Config where
  VPP : Config.VPPPart
  Linux : Config.LinuxPart
deriving DecidableEq, Repr

/-- The zero value of `Config` (`var config Config`): every slice is nil. -/
def Config.zero : Config :=
  { VPP := { Interfaces := [], L2XConnects := [], IPSecTunProtects := [], IPSecSAs := [],
             IPSecSPDs := [] },
    Linux := { Interfaces := [] } }

/-! ## External collaborators -/

/-- A registered model of the external registry; only `Name()` is used. -/
structure KnownModel where
  Name : String
deriving DecidableEq, Repr

/-- The external code `retrieveConfig` depends on: the model registry (`models.GetModelForKey`
and the six registered models the switch compares against) and `json.Unmarshal` at each target
type. A decoder yields `none` when it stores a nil pointer (the JSON literal `null`). -/
structure Env where
  GetModelForKey : String → Except GoError KnownModel
  vppModelInterface : KnownModel
  linuxModelInterface : KnownModel
  ModelXConnectPair : KnownModel
  ModelTunnelProtection : KnownModel
  ModelSecurityAssociation : KnownModel
  ModelSecurityPolicyDatabase : KnownModel
  unmarshalList : String → Except GoError (List kvdata)
  unmarshalVppInterface : RawMessage → Except GoError (Option vpp_interfaces.Interface)
  unmarshalLinuxInterface : RawMessage → Except GoError (Option linux_interfaces.Interface)
  unmarshalXConnectPair : RawMessage → Except GoError (Option vpp_l2.XConnectPair)
  unmarshalTunnelProtection : RawMessage → Except GoError (Option vpp_ipsec.TunnelProtection)
  unmarshalSecurityAssociation :
    RawMessage → Except GoError (Option vpp_ipsec.SecurityAssociation)
  unmarshalSecurityPolicyDatabase :
    RawMessage → Except GoError (Option vpp_ipsec.SecurityPolicyDatabase)

/-- The `probe.Handler` / `probe.Host` interface: remote command execution. -/
structure Handler where
  ExecCmd : String → List String → Except GoError String

/-! ## `retrieveConfig` -/

/-- The function `runAgentctlCmd`. -/
def runAgentctlCmd (host : Handler) (args : List String) : Except GoError String :=
  match host.ExecCmd "agentctl" args with
  | .error err => .error err
  | .ok dump => .ok dump

/-- The arguments `retrieveConfig` passes to `runAgentctlCmd`. -/
def dumpArgs : List String := ["dump", "-f ", "json", "--view ", "SB", "all"]

/-- One iteration of the `for _, item := range list` loop of `retrieveConfig`: the switch on
`model.Name()` tries its cases in order; `continue` leaves the configuration unchanged. -/
def retrieveConfig.step (E : Env) (config : Config) (item : kvdata) : Config :=
  match E.GetModelForKey item.Key with
  | .error _ => config
  | .ok model =>
    if model.Name = E.vppModelInterface.Name then
      match E.unmarshalVppInterface item.Value with
      | .error _ => config
      | .ok v =>
        { config with VPP := { config.VPP with
            Interfaces := config.VPP.Interfaces ++ [{ kvdata := item, Value := v }] } }
    else if model.Name = E.linuxModelInterface.Name then
      match E.unmarshalLinuxInterface item.Value with
      | .error _ => config
      | .ok v =>
        { config with Linux := { config.Linux with
            Interfaces := config.Linux.Interfaces ++ [{ kvdata := item, Value := v }] } }
    else if model.Name = E.ModelXConnectPair.Name then
      match E.unmarshalXConnectPair item.Value with
      | .error _ => config
      | .ok v =>
        { config with VPP := { config.VPP with
            L2XConnects := config.VPP.L2XConnects ++ [{ kvdata := item, Value := v }] } }
    else if model.Name = E.ModelTunnelProtection.Name then
      match E.unmarshalTunnelProtection item.Value with
      | .error _ => config
      | .ok v =>
        { config with VPP := { config.VPP with
            IPSecTunProtects :=
              config.VPP.IPSecTunProtects ++ [{ kvdata := item, Value := v }] } }
    else if model.Name = E.ModelSecurityAssociation.Name then
      match E.unmarshalSecurityAssociation item.Value with
      | .error _ => config
      | .ok v =>
        { config with VPP := { config.VPP with
            IPSecSAs := config.VPP.IPSecSAs ++ [{ kvdata := item, Value := v }] } }
    else if model.Name = E.ModelSecurityPolicyDatabase.Name then
      match E.unmarshalSecurityPolicyDatabase item.Value with
      | .error _ => config
      | .ok v =>
        { config with VPP := { config.VPP with
            IPSecSPDs := config.VPP.IPSecSPDs ++ [{ kvdata := item, Value := v }] } }
    else config

/-- The classification loop of `retrieveConfig`, from the zero `Config`. -/
def retrieveConfig.classify (E : Env) (list : List kvdata) : Config :=
  list.foldl (retrieveConfig.step E) Config.zero

/-- The function `retrieveConfig`; the result is the Go pair `(*Config, error)`. -/
def retrieveConfig (E : Env) (handler : Handler) : Option Config × Option GoError :=
  match runAgentctlCmd handler dumpArgs with
  | .error err => (none, some ("dumping all failed: " ++ err))
  | .ok dump =>
    match E.unmarshalList dump with
    | .error err => (none, some ("unmarshaling dump failed: " ++ err))
    | .ok list => (some (retrieveConfig.classify E list), none)

/-! ## Queries -/

/-- The method `(*Config).HasVppInterfaceType`. Reading `c.VPP` through a nil receiver and
`iface.Value.Type` through a nil `Value` panic. -/
def Config.HasVppInterfaceType.loop (typ : vpp_interfaces.Interface_Type) :
    List VppInterface → Except GoPanic Bool
  | [] => .ok false
  | iface :: rest =>
    match iface.Value with
    | none => .error .nilPointerDereference
    | some v => if v.Typ = typ then .ok true else Config.HasVppInterfaceType.loop typ rest

/-- The method `(*Config).HasVppInterfaceType`. -/
def Config.HasVppInterfaceType (c : Option Config) (typ : vpp_interfaces.Interface_Type) :
    Except GoPanic Bool :=
  match c with
  | none => .error .nilPointerDereference
  | some c => Config.HasVppInterfaceType.loop typ c.VPP.Interfaces

/-- The function `FindL2XconnFor`; the result pointer is `some` of the matching element. -/
def FindL2XconnFor (intfName : String) :
    List VppL2XConnect → Except GoPanic (Option VppL2XConnect)
  | [] => .ok none
  | xconn :: rest =>
    match xconn.Value with
    | none => .error .nilPointerDereference
    | some v =>
      if intfName = v.ReceiveInterface || intfName = v.TransmitInterface then .ok (some xconn)
      else FindL2XconnFor intfName rest

/-- The function `FindIPSecTunProtectFor`. -/
def FindIPSecTunProtectFor (intfName : String) :
    List VppIPSecTunProtect → Except GoPanic (Option VppIPSecTunProtect)
  | [] => .ok none
  | tp :: rest =>
    match tp.Value with
    | none => .error .nilPointerDereference
    | some v =>
      if intfName = v.Interface then .ok (some tp) else FindIPSecTunProtectFor intfName rest

/-- The function `HasAnyIPSecConfig`. -/
def HasAnyIPSecConfig (config : Option Config) : Bool :=
  match config with
  | none => false
  | some config =>
    if config.VPP.IPSecTunProtects.length > 0 || config.VPP.IPSecSAs.length > 0
        || config.VPP.IPSecSPDs.length > 0 then true
    else false

/-! ## Specification vocabulary for `retrieveConfig` -/

/-- The names of the six models the switch of `retrieveConfig` compares against, in case
order. The external registry refuses to register two models under one name. -/
def Env.mappedNames (E : Env) : List String :=
  [E.vppModelInterface.Name, E.linuxModelInterface.Name, E.ModelXConnectPair.Name,
   E.ModelTunnelProtection.Name, E.ModelSecurityAssociation.Name,
   E.ModelSecurityPolicyDatabase.Name]

/-- The key of `item` resolves to a model, and that model's name is the name of `m`. -/
def Env.keyResolvesTo (E : Env) (m : KnownModel) (item : kvdata) : Bool :=
  match E.GetModelForKey item.Key with
  | .ok model => decide (model.Name = m.Name)
  | .error _ => false

/-- The key of `item` resolves to some model. -/
def Env.keyResolves (E : Env) (item : kvdata) : Bool :=
  match E.GetModelForKey item.Key with
  | .ok _ => true
  | .error _ => false

/-- The payload of `item` decodes without error under `unmarshal`. -/
def payloadDecodes {α : Type} (unmarshal : RawMessage → Except GoError α) (item : kvdata) :
    Bool :=
  match unmarshal item.Value with
  | .ok _ => true
  | .error _ => false

/-- Sequence-wise concatenation of two configurations. -/
def Config.append (c d : Config) : Config :=
  { VPP := { Interfaces := c.VPP.Interfaces ++ d.VPP.Interfaces,
             L2XConnects := c.VPP.L2XConnects ++ d.VPP.L2XConnects,
             IPSecTunProtects := c.VPP.IPSecTunProtects ++ d.VPP.IPSecTunProtects,
             IPSecSAs := c.VPP.IPSecSAs ++ d.VPP.IPSecSAs,
             IPSecSPDs := c.VPP.IPSecSPDs ++ d.VPP.IPSecSPDs },
    Linux := { Interfaces := c.Linux.Interfaces ++ d.Linux.Interfaces } }

/-- The typed record `mk item v` when the key of `item` resolves to `m` and its payload decodes
to `v`; nothing otherwise. -/
def Env.pick {α β : Type} (E : Env) (m : KnownModel)
    (unmarshal : RawMessage → Except GoError (Option α)) (mk : kvdata → Option α → β)
    (item : kvdata) : Option β :=
  if E.keyResolvesTo m item then
    match unmarshal item.Value with
    | .ok v => some (mk item v)
    | .error _ => none
  else none

/-- The `kvdata` parts of the six sequences of a configuration, in the order
`VPP.Interfaces`, `Linux.Interfaces`, `VPP.L2XConnects`, `VPP.IPSecTunProtects`,
`VPP.IPSecSAs`, `VPP.IPSecSPDs`. -/
def Config.records (c : Config) : List (List kvdata) :=
  [c.VPP.Interfaces.map (fun x => x.kvdata), c.Linux.Interfaces.map (fun x => x.kvdata),
   c.VPP.L2XConnects.map (fun x => x.kvdata), c.VPP.IPSecTunProtects.map (fun x => x.kvdata),
   c.VPP.IPSecSAs.map (fun x => x.kvdata), c.VPP.IPSecSPDs.map (fun x => x.kvdata)]

/-- The number of typed records of a configuration, summed over its six sequences. -/
def Config.total (c : Config) : Nat :=
  c.VPP.Interfaces.length + c.Linux.Interfaces.length + c.VPP.L2XConnects.length
    + c.VPP.IPSecTunProtects.length + c.VPP.IPSecSAs.length + c.VPP.IPSecSPDs.length

/-- The sequence `seq` is the decodable sub-list of the dump `list` for model `m`: its records
are, in dump order, exactly the dump records whose key resolves to `m` and whose payload
decodes under `unmarshal`, each paired with the value its payload decodes to. -/
def Env.IsDecodableSublist {α β : Type} (E : Env) (m : KnownModel)
    (unmarshal : RawMessage → Except GoError (Option α)) (kv : β → kvdata)
    (val : β → Option α) (list : List kvdata) (seq : List β) : Prop :=
  seq.map kv = list.filter (fun item => E.keyResolvesTo m item && payloadDecodes unmarshal item)
    ∧ ∀ x ∈ seq, unmarshal (kv x).Value = .ok (val x)

/-- The key of `item` resolves to one of the six mapped models and its payload decodes under
that model. -/
def Env.mappedAndDecodes (E : Env) (item : kvdata) : Bool :=
  (E.keyResolvesTo E.vppModelInterface item && payloadDecodes E.unmarshalVppInterface item)
  || (E.keyResolvesTo E.linuxModelInterface item
        && payloadDecodes E.unmarshalLinuxInterface item)
  || (E.keyResolvesTo E.ModelXConnectPair item && payloadDecodes E.unmarshalXConnectPair item)
  || (E.keyResolvesTo E.ModelTunnelProtection item
        && payloadDecodes E.unmarshalTunnelProtection item)
  || (E.keyResolvesTo E.ModelSecurityAssociation item
        && payloadDecodes E.unmarshalSecurityAssociation item)
  || (E.keyResolvesTo E.ModelSecurityPolicyDatabase item
        && payloadDecodes E.unmarshalSecurityPolicyDatabase item)

/-- The payload of `item` is well formed for the model its key resolves to: whenever the key
resolves to one of the six mapped models, the payload decodes under that model. (For any other
model `retrieveConfig` has no decoder and nothing is required.) -/
def Env.payloadWellFormed (E : Env) (item : kvdata) : Bool :=
  (!E.keyResolvesTo E.vppModelInterface item || payloadDecodes E.unmarshalVppInterface item)
  && (!E.keyResolvesTo E.linuxModelInterface item
        || payloadDecodes E.unmarshalLinuxInterface item)
  && (!E.keyResolvesTo E.ModelXConnectPair item || payloadDecodes E.unmarshalXConnectPair item)
  && (!E.keyResolvesTo E.ModelTunnelProtection item
        || payloadDecodes E.unmarshalTunnelProtection item)
  && (!E.keyResolvesTo E.ModelSecurityAssociation item
        || payloadDecodes E.unmarshalSecurityAssociation item)
  && (!E.keyResolvesTo E.ModelSecurityPolicyDatabase item
        || payloadDecodes E.unmarshalSecurityPolicyDatabase item)

/-! ## A sample environment

Concrete collaborators at which the theorems below are instantiated. Keys have the form
`<model name>/<object name>`; the decoders accept the JSON literal `null` and a few fixed
payloads.
-/

deriving instance DecidableEq for Except

/-- Sample registry lookup: the model name is the part of the key before the first `/`. -/
def sampleGetModelForKey (key : String) : Except GoError KnownModel :=
  if key.toList.contains '/' then
    .ok { Name := String.mk (key.toList.takeWhile (fun ch => ch != '/')) }
  else .error "no model found for key"

/-- Sample payload of a loopback interface named `loop1`. -/
def payloadLoop1 : RawMessage := "\x7b\"name\":\"loop1\",\"type\":\"SOFTWARE_LOOPBACK\"\x7d"

/-- Sample payload of a cross-connect from `loop1` to `memif1`. -/
def payloadXconn1 : RawMessage :=
  "\x7b\"receive_interface\":\"loop1\",\"transmit_interface\":\"memif1\"\x7d"

/-- Sample payload of a route. -/
def payloadRoute1 : RawMessage := "\x7b\"dst_network\":\"10.0.0.0/24\"\x7d"

/-- Sample payload of a security association. -/
def payloadSA1 : RawMessage := "\x7b\"index\":1\x7d"

/-- Sample decoder: `null` gives a nil pointer, `known` gives `v`, anything else fails. -/
def sampleUnmarshal {α : Type} (known : RawMessage) (v : α) (raw : RawMessage) :
    Except GoError (Option α) :=
  if raw = "null" then .ok none
  else if raw = known then .ok (some v)
  else .error "json: cannot unmarshal"

/-- The sample environment; the dump text deserializes to `list` unless it is empty. -/
def sampleEnv (list : List kvdata) : Env :=
  { GetModelForKey := sampleGetModelForKey
    vppModelInterface := { Name := "vpp.interfaces" }
    linuxModelInterface := { Name := "linux.interfaces" }
    ModelXConnectPair := { Name := "vpp.l2.xconnect" }
    ModelTunnelProtection := { Name := "vpp.ipsec.tun-protect" }
    ModelSecurityAssociation := { Name := "vpp.ipsec.sa" }
    ModelSecurityPolicyDatabase := { Name := "vpp.ipsec.spd" }
    unmarshalList := fun text =>
      if text = "" then .error "unexpected end of JSON input" else .ok list
    unmarshalVppInterface := sampleUnmarshal payloadLoop1 { Name := "loop1", Typ := 2 }
    unmarshalLinuxInterface := sampleUnmarshal "" { Name := "" }
    unmarshalXConnectPair :=
      sampleUnmarshal payloadXconn1 { ReceiveInterface := "loop1", TransmitInterface := "memif1" }
    unmarshalTunnelProtection := sampleUnmarshal "" { Interface := "" }
    unmarshalSecurityAssociation := sampleUnmarshal payloadSA1 { Index := 1 }
    unmarshalSecurityPolicyDatabase := sampleUnmarshal "" { Index := 0 } }

/-- A handler whose every command succeeds with the output `out`. -/
def sampleHandler (out : String) : Handler :=
  { ExecCmd := fun _ _ => .ok out }

/-- A handler whose every command fails. -/
def failingHandler : Handler :=
  { ExecCmd := fun _ _ => .error "command failed" }

/-- Sample record: the loopback interface `loop1`. -/
def recLoop1 : kvdata :=
  { Key := "vpp.interfaces/loop1", Value := payloadLoop1, Metadata := [], Origin := 2 }

/-- Sample record: a key no model is registered for. -/
def recUnknown : kvdata :=
  { Key := "unknown-key", Value := payloadLoop1, Metadata := [], Origin := 2 }

/-- Sample record: an interface whose payload is not an object. -/
def recMalformed : kvdata :=
  { Key := "vpp.interfaces/bad", Value := "[]", Metadata := [], Origin := 2 }

/-- Sample record: a cross-connect receiving on `loop1`. -/
def recXconn1 : kvdata :=
  { Key := "vpp.l2.xconnect/loop1", Value := payloadXconn1, Metadata := [], Origin := 2 }

/-- Sample record: a route, whose model is registered but is none of the six mapped models. -/
def recRoute1 : kvdata :=
  { Key := "vpp.l3.route/r1", Value := payloadRoute1, Metadata := [], Origin := 2 }

/-- Sample record: a security association. -/
def recSA1 : kvdata :=
  { Key := "vpp.ipsec.sa/1", Value := payloadSA1, Metadata := [], Origin := 2 }

/-- A sample dump with an unresolvable and a malformed record among decodable ones. -/
def sampleDump : List kvdata := [recLoop1, recUnknown, recXconn1, recMalformed, recSA1]

/-- The dump text handed to the sample environment (its content is not inspected). -/
def sampleDumpText : String := "[...]"

/-- A sample dump whose second record resolves to a model outside the six mapped ones. -/
def routeDump : List kvdata := [recLoop1, recRoute1]

/-- The configuration `retrieveConfig` builds from `routeDump`: the interface alone. -/
def routeConfig : Config :=
  { Config.zero with VPP := { Config.zero.VPP with
      Interfaces := [{ kvdata := recLoop1, Value := some { Name := "loop1", Typ := 2 } }] } }

/-! ## Specification vocabulary for the queries -/

/-- The cross-connect has a value whose `ReceiveInterface` or `TransmitInterface` is
`intfName`. -/
def VppL2XConnect.references (intfName : String) (x : VppL2XConnect) : Bool :=
  match x.Value with
  | some v => decide (intfName = v.ReceiveInterface) || decide (intfName = v.TransmitInterface)
  | none => false

/-- The tunnel protection has a value whose `Interface` is `intfName`. -/
def VppIPSecTunProtect.protects (intfName : String) (x : VppIPSecTunProtect) : Bool :=
  match x.Value with
  | some v => decide (intfName = v.Interface)
  | none => false

/-- The interface has a value whose `Type` is `typ`. -/
def VppInterface.hasType (typ : vpp_interfaces.Interface_Type) (x : VppInterface) : Bool :=
  match x.Value with
  | some v => decide (v.Typ = typ)
  | none => false

/-- Sample typed record: a cross-connect whose payload was `null`, so its `Value` is nil. -/
def xconnNil : VppL2XConnect :=
  { kvdata := { Key := "vpp.l2.xconnect/memif9", Value := "null", Metadata := [], Origin := 2 },
    Value := none }

/-- Sample typed record: the cross-connect from `loop1` to `memif1`. -/
def xconnLoop1 : VppL2XConnect :=
  { kvdata := recXconn1,
    Value := some { ReceiveInterface := "loop1", TransmitInterface := "memif1" } }

/-- Sample typed record: a cross-connect from `memif1` to `loop1`. -/
def xconnMemif1 : VppL2XConnect :=
  { kvdata := { Key := "vpp.l2.xconnect/memif1", Value := "", Metadata := [], Origin := 2 },
    Value := some { ReceiveInterface := "memif1", TransmitInterface := "loop1" } }

/-- Sample typed record: a tunnel protection whose `Value` is nil. -/
def tunNil : VppIPSecTunProtect :=
  { kvdata := { Key := "vpp.ipsec.tun-protect/ipip9", Value := "null", Metadata := [],
                Origin := 2 },
    Value := none }

/-- Sample typed record: a tunnel protection bound to `ipip0`, with the given key. -/
def tunIpip0 (key : String) : VppIPSecTunProtect :=
  { kvdata := { Key := key, Value := "", Metadata := [], Origin := 2 },
    Value := some { Interface := "ipip0" } }

/-- Sample typed record: an interface whose `Value` is nil. -/
def ifaceNil : VppInterface :=
  { kvdata := { Key := "vpp.interfaces/tap0", Value := "null", Metadata := [], Origin := 2 },
    Value := none }

/-- Sample typed record: the loopback interface `loop1` (type 2). -/
def ifaceLoop1 : VppInterface :=
  { kvdata := recLoop1, Value := some { Name := "loop1", Typ := 2 } }

/-- A configuration holding the given VPP interfaces and nothing else. -/
def configOfInterfaces (ifaces : List VppInterface) : Config :=
  { Config.zero with VPP := { Config.zero.VPP with Interfaces := ifaces } }

/-- Sample typed record: a cross-connect from `memif2` to `memif3`. -/
def xconnOther : VppL2XConnect :=
  { kvdata := { Key := "vpp.l2.xconnect/memif2", Value := "", Metadata := [], Origin := 2 },
    Value := some { ReceiveInterface := "memif2", TransmitInterface := "memif3" } }

/-- Sample typed record: a tunnel protection bound to `ipip1`. -/
def tunIpip1 : VppIPSecTunProtect :=
  { kvdata := { Key := "vpp.ipsec.tun-protect/ipip1", Value := "", Metadata := [], Origin := 2 },
    Value := some { Interface := "ipip1" } }

/-- Sample typed record: the memif interface `memif1` (type 4). -/
def ifaceMemif1 : VppInterface :=
  { kvdata := { Key := "vpp.interfaces/memif1", Value := "", Metadata := [], Origin := 2 },
    Value := some { Name := "memif1", Typ := 4 } }

/-- Sample typed record: a Linux interface. -/
def linuxVeth1 : LinuxInterface :=
  { kvdata := { Key := "linux.interfaces/veth1", Value := "", Metadata := [], Origin := 2 },
    Value := some { Name := "veth1" } }

/-! ## `vpp/cli.go`: regular expressions

The three patterns of `vpp/cli.go` are sequences of literals and greedy one-or-more repetitions
of a character class, and in each of them a repetition is followed by nothing or by something
whose first character lies outside the class (whitespace before a non-blank, digits before a
comma, and so on). For such a pattern the leftmost-first match of Go's `regexp` package at a
given start position is found without backtracking: every repetition takes the longest run.
Texts are sequences of Unicode characters (valid UTF-8).
-/

/-- One item of a pattern: a literal, `c+` or the capturing `(c+)` for a character class. -/
inductive ReItem where
  | lit (s : String)
  | plus (cls : Char → Bool)
  | group (cls : Char → Bool)

/-- A compiled pattern: its items in order. -/
structure Regexp where
  items : List ReItem

/-- The class `\s` of Go's regexp syntax: `[\t\n\f\r ]`. -/
def isSpaceRE (ch : Char) : Bool :=
  ch = '\t' || ch = '\n' || ch = '\x0c' || ch = '\r' || ch = ' '

/-- The class `\S`. -/
def isNonSpaceRE (ch : Char) : Bool := !isSpaceRE ch

/-- The class `[0-9]`. -/
def isDigitRE (ch : Char) : Bool := '0'.toNat ≤ ch.toNat && ch.toNat ≤ '9'.toNat

/-- Match the literal `l` at the start of `s`; the result is what follows it. -/
def dropLit : List Char → List Char → Option (List Char)
  | [], s => some s
  | _ :: _, [] => none
  | a :: l, ch :: s => if a = ch then dropLit l s else none

/-- Match the items at the start of `s`: the text that follows the match and the captures. -/
def ReItem.matchSeq : List ReItem → List Char → Option (List Char × List (List Char))
  | [], s => some (s, [])
  | .lit l :: items, s =>
    match dropLit l.toList s with
    | none => none
    | some r => ReItem.matchSeq items r
  | .plus cls :: items, s =>
    if s.takeWhile cls = [] then none else ReItem.matchSeq items (s.dropWhile cls)
  | .group cls :: items, s =>
    if s.takeWhile cls = [] then none
    else
      match ReItem.matchSeq items (s.dropWhile cls) with
      | none => none
      | some (r, caps) => some (r, s.takeWhile cls :: caps)

/-- The leftmost match: try every start position from the left. The result lists the whole
match and then the captures. -/
def Regexp.findFrom (re : Regexp) : List Char → Option (List (List Char))
  | [] =>
    match ReItem.matchSeq re.items [] with
    | some (_, caps) => some ([] :: caps)
    | none => none
  | ch :: s =>
    match ReItem.matchSeq re.items (ch :: s) with
    | some (r, caps) => some ((ch :: s).take ((ch :: s).length - r.length) :: caps)
    | none => Regexp.findFrom re s

/-- The method `(*Regexp).FindStringSubmatch`: nil (the empty list) when nothing matches. -/
def Regexp.FindStringSubmatch (re : Regexp) (s : String) : List String :=
  match re.findFrom s.toList with
  | some ms => ms.map String.mk
  | none => []

/-- The pattern `Version:\s+(\S+)`. -/
def cliShowVersionVerbose : Regexp :=
  { items := [.lit "Version:", .plus isSpaceRE, .group isNonSpaceRE] }

/-- The pattern `PID:\s+([0-9]+)`. -/
def cliShowVersionVerbosePID : Regexp :=
  { items := [.lit "PID:", .plus isSpaceRE, .group isDigitRE] }

/-! ## `vpp/cli.go`: `strconv.Atoi` -/

/-- The number a string of decimal digits denotes. -/
def decimalValue (digits : List Char) : Nat :=
  digits.foldl (fun n ch => 10 * n + (ch.toNat - '0'.toNat)) 0

/-- Go's `strconv.Atoi` for an `int` of `intSize` bits: an optional sign and decimal digits.
Bad syntax gives `(0, error)`; a value outside the range of `int` gives the nearest bound of the
range and an error. -/
def Atoi (intSize : Nat) (s : String) : Int × Option GoError :=
  let body (neg : Bool) (digits : List Char) : Int × Option GoError :=
    if digits = [] ∨ ¬ digits.all isDigitRE then (0, some "invalid syntax")
    else if neg then
      if decimalValue digits > 2 ^ (intSize - 1) then
        (-(2 ^ (intSize - 1) : Int), some "value out of range")
      else (-(decimalValue digits : Int), none)
    else
      if decimalValue digits ≥ 2 ^ (intSize - 1) then
        ((2 ^ (intSize - 1) : Int) - 1, some "value out of range")
      else ((decimalValue digits : Int), none)
  match s.toList with
  | [] => body false []
  | ch :: rest =>
    if ch = '-' then body true rest
    else if ch = '+' then body false rest
    else body false (ch :: rest)

/-! ## `vpp/cli.go`: `GetVersionInfoCLI` -/

/-- The `probe.CliExecutor` interface. -/
structure CliExecutor where
  RunCli : String → Except GoError String

/-- The `api.VersionInfo` struct, reduced to the fields `GetVersionInfoCLI` sets. -/
structure api.VersionInfo where
  Version : String
  Pid : Int
deriving DecidableEq, Repr

/-- The function `GetVersionInfoCLI`, for an `int` of `intSize` bits; the result is the Go pair
`(*api.VersionInfo, error)`. -/
def GetVersionInfoCLI (intSize : Nat) (cli : CliExecutor) :
    Option api.VersionInfo × Option GoError :=
  match cli.RunCli "show version verbose" with
  | .error err => (none, some err)
  | .ok out =>
    let info : api.VersionInfo := { Version := "", Pid := 0 }
    let matchVersion := cliShowVersionVerbose.FindStringSubmatch out
    let info :=
      if matchVersion.length > 1 then { info with Version := matchVersion.getD 1 "" } else info
    let matchPid := cliShowVersionVerbosePID.FindStringSubmatch out
    let info :=
      if matchPid.length > 1 then { info with Pid := (Atoi intSize (matchPid.getD 1 "")).1 }
      else info
    (some info, none)

/-- A CLI executor whose every command succeeds with the output `out`. -/
def sampleCli (out : String) : CliExecutor :=
  { RunCli := fun _ => .ok out }

/-- The text of the version scenario. -/
def versionText : String := "Version: v20.09-rc0~399\n...\nCurrent PID: 170"

/-- A version text whose process id does not fit a 64-bit `int`. -/
def hugePidText : String := "Version: v20.09-rc0~399\nCurrent PID: 99999999999999999999"

/-! ## `vpp/cli.go`: float64 arithmetic

`GetUptimeCLI` parses the captured text with `strconv.ParseFloat`, multiplies by
`float64(time.Second)` and converts to `time.Duration`. The captured text holds digits and dots
only, so every value met is a non-negative float64. A finite float64 is a whole number of units
of `2^-1074` (the smallest subnormal), and that number of units is how it is represented here;
rounding is IEEE 754 round-to-nearest, ties to even.
-/

/-- The non-negative float64 values: a finite value, as a count of units of `2^-1074`, or
`+Inf`. -/
inductive Float64 where
  | finite (units : Nat)
  | inf
deriving DecidableEq, Repr

/-- The quotient `a / b` rounded to the nearest natural number, ties to even. -/
def roundHalfEven (a b : Nat) : Nat :=
  if 2 * (a % b) < b then a / b
  else if 2 * (a % b) > b then a / b + 1
  else if (a / b) % 2 = 0 then a / b
  else a / b + 1

/-- The number of halvings that bring `n` below 2, at most `fuel` of them. -/
def log2Fuel : Nat → Nat → Nat
  | 0, _ => 0
  | fuel + 1, n => if n ≥ 2 then log2Fuel fuel (n / 2) + 1 else 0

/-- The integer part of the binary logarithm of `n` (0 for `n = 0`). -/
def floorLog2 (n : Nat) : Nat := log2Fuel n n

/-- The float64 nearest to `a / b` units (`b` positive): below `2^53` units the float64 values
are one unit apart, and from `2^L` units on (`L ≥ 53`) they are `2^(L-52)` units apart; a result
of `2^2098` units (`2^1024`) or more overflows to `+Inf`. -/
def Float64.round (a b : Nat) : Float64 :=
  let shift := floorLog2 (a / b) - 52
  let units := roundHalfEven a (b * 2 ^ shift) * 2 ^ shift
  if units < 2 ^ 2098 then .finite units else .inf

/-- The float64 product of two non-negative values (`0 * Inf`, a NaN, does not arise: the one
product of `GetUptimeCLI` has the factor `1e9`). -/
def Float64.mul : Float64 → Float64 → Float64
  | .finite a, .finite b => Float64.round (a * b) (2 ^ 1074)
  | _, _ => .inf

/-- The value `float64(time.Second)`, that is `1e9`, which is exact. -/
def Float64.second : Float64 := .finite (1000000000 * 2 ^ 1074)

/-- The conversion `time.Duration(f)` of a float64 to `int64`: the fraction is discarded; when
the result does not fit `int64` the value is implementation-dependent and is given by
`outOfRange`. -/
def Float64.toInt64 (outOfRange : Float64 → Int) (f : Float64) : Int :=
  match f with
  | .finite units =>
    if units / 2 ^ 1074 < 2 ^ 63 then ((units / 2 ^ 1074 : Nat) : Int) else outOfRange f
  | .inf => outOfRange f

/-- The class `[0-9\.]`. -/
def isDigitOrDotRE (ch : Char) : Bool := isDigitRE ch || ch = '.'

/-- Go's `strconv.ParseFloat(s, 64)` on a text of digits and dots, the only texts the clock
pattern captures (signs, exponents, hexadecimal and the special names are outside this model and
are reported as bad syntax). The text must be digits with at most one dot and at least one
digit; bad syntax gives `(0, error)`, a value too large for float64 gives `(+Inf, error)`, and
otherwise the result is the float64 nearest to the decimal value. -/
def ParseFloat (s : String) : Float64 × Option GoError :=
  let intPart := s.toList.takeWhile isDigitRE
  let value (frac : List Char) : Float64 × Option GoError :=
    if intPart = [] ∧ frac = [] then (.finite 0, some "invalid syntax")
    else
      match Float64.round (decimalValue (intPart ++ frac) * 2 ^ 1074) (10 ^ frac.length) with
      | .inf => (.inf, some "value out of range")
      | f => (f, none)
  match s.toList.dropWhile isDigitRE with
  | [] => value []
  | ch :: r =>
    if ch = '.' ∧ r.dropWhile isDigitRE = [] then value r
    else (.finite 0, some "invalid syntax")

/-! ## `vpp/cli.go`: `GetUptimeCLI` and `DumpLogsCLI` -/

/-- The pattern `Time\s+now\s+([0-9\.]+),\s+(\S+)`. -/
def cliShowClock : Regexp :=
  { items := [.lit "Time", .plus isSpaceRE, .lit "now", .plus isSpaceRE, .group isDigitOrDotRE,
              .lit ",", .plus isSpaceRE, .group isNonSpaceRE] }

/-- The function `GetUptimeCLI`; the result is the Go pair `(time.Duration, error)`, a duration
being a number of nanoseconds. -/
def GetUptimeCLI (outOfRange : Float64 → Int) (cli : CliExecutor) : Int × Option GoError :=
  match cli.RunCli "show clock" with
  | .error err => (0, some err)
  | .ok out =>
    let matchUptime := cliShowClock.FindStringSubmatch out
    let uptime : Int :=
      if matchUptime.length > 1 then
        match ParseFloat (matchUptime.getD 1 "") with
        | (_, some _) => 0
        | (floatUptime, none) => Float64.toInt64 outOfRange (floatUptime.mul Float64.second)
      else 0
    (uptime, none)

/-- The loop of Go's `strings.Split` for a one-character separator: at most `k` times, cut the
text at the first separator; what is left is the last piece. -/
def genSplit (sep : Char) : Nat → List Char → List (List Char)
  | 0, s => [s]
  | k + 1, s =>
    if s.contains sep then
      s.takeWhile (fun ch => ch != sep)
        :: genSplit sep k ((s.dropWhile (fun ch => ch != sep)).drop 1)
    else [s]

/-- Go's `strings.Split(s, sep)` for a one-character separator: `Count(s, sep) + 1` pieces. -/
def stringsSplit (s : String) (sep : Char) : List String :=
  (genSplit sep (s.toList.count sep) s.toList).map String.mk

/-- The function `DumpLogsCLI`; the result is the Go pair `([]string, error)`. -/
def DumpLogsCLI (cli : CliExecutor) : List String × Option GoError :=
  match cli.RunCli "show log" with
  | .error err => ([], some err)
  | .ok out => (stringsSplit out '\n', none)

/-- The out-of-range conversion of amd64: the smallest `int64`. -/
def sampleOutOfRange : Float64 → Int := fun _ => -9223372036854775808

/-- The text of the clock scenario. -/
def clockText : String := "Time now 3180.278756, Tue, 1 Dec 2020 11:52:45 GMT"

/-! ## Specification vocabulary for the text extractors -/

/-- The text `s` begins with the literal `lit`, followed by one or more blanks and one or more
characters of the class `cls`. -/
def BeginsWith (lit : String) (cls : Char → Bool) (s : List Char) : Prop :=
  ∃ ws tok rest, s = lit.toList ++ ws ++ tok ++ rest
    ∧ ws ≠ [] ∧ (∀ ch ∈ ws, isSpaceRE ch = true)
    ∧ tok ≠ [] ∧ (∀ ch ∈ tok, cls ch = true)

/-- The pattern `lit\s+(cls+)` matches nowhere in `text`. -/
def Unmatched (lit : String) (cls : Char → Bool) (text : String) : Prop :=
  ∀ pre s, text.toList = pre ++ s → ¬ BeginsWith lit cls s

/-- The leftmost place of `text` where `lit` is followed by blanks and characters of `cls`
carries the token `tok`: `tok` is the whole run of `cls` characters found there. -/
def LeftmostToken (lit : String) (cls : Char → Bool) (text : String) (tok : List Char) : Prop :=
  ∃ pre ws rest, text.toList = pre ++ (lit.toList ++ ws ++ tok ++ rest)
    ∧ ws ≠ [] ∧ (∀ ch ∈ ws, isSpaceRE ch = true)
    ∧ tok ≠ [] ∧ (∀ ch ∈ tok, cls ch = true)
    ∧ (∀ ch ∈ rest.head?, cls ch = false)
    ∧ ∀ pre2 s2, text.toList = pre2 ++ s2 → pre2.length < pre.length → ¬ BeginsWith lit cls s2

/-- A text with neither a version line nor a process id line. -/
def noVersionText : String := "vpp is running"

/-- A non-empty run of blanks. -/
def Blanks (ws : List Char) : Prop := ws ≠ [] ∧ ∀ ch ∈ ws, isSpaceRE ch = true

/-- The text `s` begins with `Time`, blanks, `now`, blanks, the non-empty run `num` of digits
and dots, a comma, blanks and at least one non-blank character. -/
def ClockBegins (s num : List Char) : Prop :=
  ∃ ws1 ws2 ws3 tok rest,
    s = "Time".toList ++ (ws1 ++ ("now".toList ++ (ws2 ++ (num ++ (",".toList
          ++ (ws3 ++ (tok ++ rest)))))))
    ∧ Blanks ws1 ∧ Blanks ws2 ∧ Blanks ws3
    ∧ num ≠ [] ∧ (∀ ch ∈ num, isDigitOrDotRE ch = true)
    ∧ tok ≠ [] ∧ (∀ ch ∈ tok, isNonSpaceRE ch = true)

/-- The clock pattern matches nowhere in `text`. -/
def ClockUnmatched (text : String) : Prop :=
  ∀ pre s num, text.toList = pre ++ s → ¬ ClockBegins s num

/-- The leftmost place of `text` where the clock pattern matches carries the number text
`num`. -/
def LeftmostClock (text : String) (num : List Char) : Prop :=
  ∃ pre s, text.toList = pre ++ s ∧ ClockBegins s num
    ∧ ∀ pre2 s2 num2, text.toList = pre2 ++ s2 → pre2.length < pre.length →
        ¬ ClockBegins s2 num2

/-- A clock text whose number has two dots. -/
def badClockText : String := "Time now 1.2.3, Tue, 1 Dec 2020 11:52:45 GMT"

/-- A clock text whose number is three dots. -/
def dotsClockText : String := "Time now ..., Tue, 1 Dec 2020 11:52:45 GMT"

/-- A clock text whose number, `1.001`, is not a float64. -/
def inexactClockText : String := "Time now 1.001, Tue, 1 Dec 2020 11:52:45 GMT"

/-- A clock text whose number of seconds exceeds what a duration can hold. -/
def hugeClockText : String := "Time now 99999999999, Tue, 1 Dec 2020 11:52:45 GMT"

/-- Go's `strings.Join(elems, sep)` for a one-character separator, on character lists. -/
def joinWith (sep : Char) : List (List Char) → List Char
  | [] => []
  | [a] => a
  | a :: b :: rest => a ++ sep :: joinWith sep (b :: rest)

/-- Go's `strings.Join(elems, sep)` for a one-character separator. -/
def stringsJoin (elems : List String) (sep : Char) : String :=
  String.mk (joinWith sep (elems.map String.toList))

/-- A log text of four lines, one of them empty, ended by a newline. -/
def logText : String := "first line\nsecond line\n\nlast line\n"

/-- The embedded `kvdata` of a typed record carries the four fields of the dump record
`item`. -/
def CarriesRecord (kv item : kvdata) : Prop :=
  kv.Key = item.Key ∧ kv.Value = item.Value ∧ kv.Metadata = item.Metadata
    ∧ kv.Origin = item.Origin

/-- The typed record with embedded data `kv` and decoded value `val` was decoded from a record
of the dump `list`: it carries that record unchanged, the key of the record resolves to a model
named as `m`, and the payload of the record decodes to `val`. -/
def Env.DecodedFrom {α : Type} (E : Env) (m : KnownModel)
    (unmarshal : RawMessage → Except GoError (Option α)) (list : List kvdata)
    (kv : kvdata) (val : Option α) : Prop :=
  ∃ item ∈ list, CarriesRecord kv item
    ∧ (∃ model, E.GetModelForKey item.Key = .ok model ∧ model.Name = m.Name)
    ∧ unmarshal item.Value = .ok val

/-- Sample record: a VPP interface whose payload is the JSON literal `null`. -/
def recNullIface : kvdata :=
  { Key := "vpp.interfaces/tap0", Value := "null", Metadata := [], Origin := 2 }

/-- A sample dump: a `null` interface record ahead of the loopback interface and the
cross-connect that receives on it. -/
def nullDump : List kvdata := [recNullIface, recLoop1, recXconn1]

/-- A sample dump: the loopback interface and the cross-connect that receives on it. -/
def loopDump : List kvdata := [recLoop1, recXconn1]

/-- Sample record: a cross-connect whose payload is the JSON literal `null`. -/
def recNullXconn : kvdata :=
  { Key := "vpp.l2.xconnect/memif9", Value := "null", Metadata := [], Origin := 2 }

/-- Sample record: a tunnel protection whose payload is the JSON literal `null`. -/
def recNullTun : kvdata :=
  { Key := "vpp.ipsec.tun-protect/ipip9", Value := "null", Metadata := [], Origin := 2 }

/-- A sample dump: the loopback interface, then a `null` cross-connect record ahead of the
cross-connect that receives on the interface. -/
def nullXconnDump : List kvdata := [recLoop1, recNullXconn, recXconn1]

/-- A sample dump of three records with the payload `null`, one per query. -/
def allNullDump : List kvdata := [recNullIface, recNullXconn, recNullTun]

/-- The configuration `retrieveConfig` builds from `loopDump`. -/
def loopConfig : Config :=
  { Config.zero with VPP := { Config.zero.VPP with
      Interfaces := [ifaceLoop1], L2XConnects := [xconnLoop1] } }

/-- The configuration `retrieveConfig` builds from `nullDump`. -/
def nullConfig : Config :=
  { Config.zero with VPP := { Config.zero.VPP with
      Interfaces := [{ kvdata := recNullIface, Value := none }, ifaceLoop1],
      L2XConnects := [xconnLoop1] } }

/-- The configuration `retrieveConfig` builds from `nullXconnDump`. -/
def nullXconnConfig : Config :=
  { Config.zero with VPP := { Config.zero.VPP with
      Interfaces := [ifaceLoop1],
      L2XConnects := [{ kvdata := recNullXconn, Value := none }, xconnLoop1] } }

/-- The configuration `retrieveConfig` builds from `allNullDump`. -/
def allNullConfig : Config :=
  { Config.zero with VPP := { Config.zero.VPP with
      Interfaces := [{ kvdata := recNullIface, Value := none }],
      L2XConnects := [{ kvdata := recNullXconn, Value := none }],
      IPSecTunProtects := [{ kvdata := recNullTun, Value := none }] } }

/-! # Theorems -/

/-! ## The classification loop -/

theorem Config.append_zero (c : Config) : c.append Config.zero = c := by
  simp [Config.append, Config.zero]

theorem Config.zero_append (c : Config) : Config.zero.append c = c := by
  simp [Config.append, Config.zero]

theorem Config.append_assoc (a b c : Config) : (a.append b).append c = a.append (b.append c) := by
  simp [Config.append]

/-- One loop iteration appends to the accumulator what it would append to the zero value. -/
theorem retrieveConfig.step_eq_append (E : Env) (c : Config) (item : kvdata) :
    retrieveConfig.step E c item = c.append (retrieveConfig.step E Config.zero item) := by
  unfold retrieveConfig.step
  cases E.GetModelForKey item.Key with
  | error e => simp [Config.append_zero]
  | ok model =>
    simp only
    split_ifs
    · cases E.unmarshalVppInterface item.Value <;> simp [Config.append, Config.zero]
    · cases E.unmarshalLinuxInterface item.Value <;> simp [Config.append, Config.zero]
    · cases E.unmarshalXConnectPair item.Value <;> simp [Config.append, Config.zero]
    · cases E.unmarshalTunnelProtection item.Value <;> simp [Config.append, Config.zero]
    · cases E.unmarshalSecurityAssociation item.Value <;> simp [Config.append, Config.zero]
    · cases E.unmarshalSecurityPolicyDatabase item.Value <;> simp [Config.append, Config.zero]
    · simp [Config.append, Config.zero]

theorem retrieveConfig.foldl_step (E : Env) (list : List kvdata) (c : Config) :
    list.foldl (retrieveConfig.step E) c = c.append (retrieveConfig.classify E list) := by
  induction list generalizing c with
  | nil => simp [retrieveConfig.classify, Config.append_zero]
  | cons item rest ih =>
    simp only [retrieveConfig.classify, List.foldl_cons]
    rw [ih (retrieveConfig.step E c item), ih (retrieveConfig.step E Config.zero item),
      retrieveConfig.step_eq_append E c item, Config.append_assoc]

theorem retrieveConfig.classify_nil (E : Env) : retrieveConfig.classify E [] = Config.zero := rfl

theorem retrieveConfig.classify_cons (E : Env) (item : kvdata) (rest : List kvdata) :
    retrieveConfig.classify E (item :: rest)
      = (retrieveConfig.step E Config.zero item).append (retrieveConfig.classify E rest) := by
  simp only [retrieveConfig.classify, List.foldl_cons]
  exact retrieveConfig.foldl_step E rest _

/-- The record lists one item contributes, one per sequence, when the six names differ. -/
theorem retrieveConfig.step_zero (E : Env) (hd : E.mappedNames.Nodup) (item : kvdata) :
    retrieveConfig.step E Config.zero item =
      { VPP :=
          { Interfaces :=
              (E.pick E.vppModelInterface E.unmarshalVppInterface VppInterface.mk item).toList,
            L2XConnects :=
              (E.pick E.ModelXConnectPair E.unmarshalXConnectPair VppL2XConnect.mk item).toList,
            IPSecTunProtects :=
              (E.pick E.ModelTunnelProtection E.unmarshalTunnelProtection
                VppIPSecTunProtect.mk item).toList,
            IPSecSAs :=
              (E.pick E.ModelSecurityAssociation E.unmarshalSecurityAssociation
                VppIPSecSA.mk item).toList,
            IPSecSPDs :=
              (E.pick E.ModelSecurityPolicyDatabase E.unmarshalSecurityPolicyDatabase
                VppIPSecSPD.mk item).toList },
        Linux :=
          { Interfaces :=
              (E.pick E.linuxModelInterface E.unmarshalLinuxInterface
                LinuxInterface.mk item).toList } } := by
  simp only [Env.mappedNames, List.nodup_cons, List.mem_cons, List.mem_singleton, not_or,
    List.not_mem_nil, not_false_eq_true, List.nodup_nil, and_true] at hd
  obtain ⟨⟨h12, h13, h14, h15, h16⟩, ⟨h23, h24, h25, h26⟩, ⟨h34, h35, h36⟩, ⟨h45, h46⟩, h56⟩ := hd
  cases hm : E.GetModelForKey item.Key with
  | error e => simp [retrieveConfig.step, Env.pick, Env.keyResolvesTo, hm, Config.zero]
  | ok model =>
    obtain ⟨name⟩ := model
    by_cases c1 : name = E.vppModelInterface.Name
    · subst c1
      cases hv : E.unmarshalVppInterface item.Value <;>
        simp [retrieveConfig.step, Env.pick, Env.keyResolvesTo, hm, Config.zero, hv, *]
    by_cases c2 : name = E.linuxModelInterface.Name
    · subst c2
      cases hv : E.unmarshalLinuxInterface item.Value <;>
        simp [retrieveConfig.step, Env.pick, Env.keyResolvesTo, hm, Config.zero, hv, *]
    by_cases c3 : name = E.ModelXConnectPair.Name
    · subst c3
      cases hv : E.unmarshalXConnectPair item.Value <;>
        simp [retrieveConfig.step, Env.pick, Env.keyResolvesTo, hm, Config.zero, hv, *]
    by_cases c4 : name = E.ModelTunnelProtection.Name
    · subst c4
      cases hv : E.unmarshalTunnelProtection item.Value <;>
        simp [retrieveConfig.step, Env.pick, Env.keyResolvesTo, hm, Config.zero, hv, *]
    by_cases c5 : name = E.ModelSecurityAssociation.Name
    · subst c5
      cases hv : E.unmarshalSecurityAssociation item.Value <;>
        simp [retrieveConfig.step, Env.pick, Env.keyResolvesTo, hm, Config.zero, hv, *]
    by_cases c6 : name = E.ModelSecurityPolicyDatabase.Name
    · subst c6
      cases hv : E.unmarshalSecurityPolicyDatabase item.Value <;>
        simp [retrieveConfig.step, Env.pick, Env.keyResolvesTo, hm, Config.zero, hv, *]
    simp [retrieveConfig.step, Env.pick, Env.keyResolvesTo, hm, Config.zero, *]

theorem Config.total_append (c d : Config) : (c.append d).total = c.total + d.total := by
  simp only [Config.total, Config.append, List.length_append]
  omega

/-- Under distinct model names the loop computes six order-preserving selections. -/
theorem retrieveConfig.classify_eq (E : Env) (hd : E.mappedNames.Nodup) (list : List kvdata) :
    retrieveConfig.classify E list =
      { VPP :=
          { Interfaces :=
              list.filterMap (E.pick E.vppModelInterface E.unmarshalVppInterface VppInterface.mk),
            L2XConnects :=
              list.filterMap (E.pick E.ModelXConnectPair E.unmarshalXConnectPair VppL2XConnect.mk),
            IPSecTunProtects :=
              list.filterMap (E.pick E.ModelTunnelProtection E.unmarshalTunnelProtection
                VppIPSecTunProtect.mk),
            IPSecSAs :=
              list.filterMap (E.pick E.ModelSecurityAssociation E.unmarshalSecurityAssociation
                VppIPSecSA.mk),
            IPSecSPDs :=
              list.filterMap (E.pick E.ModelSecurityPolicyDatabase
                E.unmarshalSecurityPolicyDatabase VppIPSecSPD.mk) },
        Linux :=
          { Interfaces :=
              list.filterMap (E.pick E.linuxModelInterface E.unmarshalLinuxInterface
                LinuxInterface.mk) } } := by
  induction list with
  | nil => rfl
  | cons item rest ih =>
    rw [retrieveConfig.classify_cons, ih, retrieveConfig.step_zero E hd]
    simp only [Config.append, List.filterMap_cons]
    congr 2 <;> (split <;> simp_all)

/-- A selection by `Env.pick` is the decodable sub-list for its model. -/
theorem Env.isDecodableSublist_filterMap_pick {α β : Type} (E : Env) (m : KnownModel)
    (unmarshal : RawMessage → Except GoError (Option α)) (mk : kvdata → Option α → β)
    (kv : β → kvdata) (val : β → Option α) (hkv : ∀ item v, kv (mk item v) = item)
    (hval : ∀ item v, val (mk item v) = v) (list : List kvdata) :
    E.IsDecodableSublist m unmarshal kv val list (list.filterMap (E.pick m unmarshal mk)) := by
  constructor
  · induction list with
    | nil => rfl
    | cons item rest ih =>
      simp only [List.filterMap_cons, List.filter_cons, Env.pick, payloadDecodes]
      cases hk : E.keyResolvesTo m item <;> cases hu : unmarshal item.Value <;>
        simp_all [Env.pick, payloadDecodes]
  · intro x hx
    obtain ⟨item, -, hpick⟩ := List.mem_filterMap.mp hx
    unfold Env.pick at hpick
    cases hk : E.keyResolvesTo m item <;> cases hu : unmarshal item.Value <;>
      simp_all
    subst hpick
    simp [hkv, hval, hu]

/-- On a dump that deserializes, `retrieveConfig` returns the classified list and no error. -/
theorem retrieveConfig_of_list (E : Env) (handler : Handler) (out : String)
    (list : List kvdata) (hexec : handler.ExecCmd "agentctl" dumpArgs = .ok out)
    (hlist : E.unmarshalList out = .ok list) :
    retrieveConfig E handler = (some (retrieveConfig.classify E list), none) := by
  simp [retrieveConfig, runAgentctlCmd, hexec, hlist]

/-! ## Claims about `retrieveConfig` -/

/-- C1. For every dump that deserializes into a list of raw records, whatever unresolvable or
malformed records it holds, `retrieveConfig` returns no error, and each of the six sequences of
the returned `Config` is exactly the sub-list of dump records whose key resolves to that
sequence's model and whose payload decodes, in dump order (each record paired with the value
its payload decodes to). The six registered model names are pairwise different. -/
theorem retrieveConfig_decodable_sublists (E : Env) (handler : Handler) (out : String)
    (list : List kvdata) (hd : E.mappedNames.Nodup)
    (hexec : handler.ExecCmd "agentctl" dumpArgs = .ok out)
    (hlist : E.unmarshalList out = .ok list) :
    ∃ c : Config, retrieveConfig E handler = (some c, none)
      ∧ E.IsDecodableSublist E.vppModelInterface E.unmarshalVppInterface
          VppInterface.kvdata VppInterface.Value list c.VPP.Interfaces
      ∧ E.IsDecodableSublist E.linuxModelInterface E.unmarshalLinuxInterface
          LinuxInterface.kvdata LinuxInterface.Value list c.Linux.Interfaces
      ∧ E.IsDecodableSublist E.ModelXConnectPair E.unmarshalXConnectPair
          VppL2XConnect.kvdata VppL2XConnect.Value list c.VPP.L2XConnects
      ∧ E.IsDecodableSublist E.ModelTunnelProtection E.unmarshalTunnelProtection
          VppIPSecTunProtect.kvdata VppIPSecTunProtect.Value list c.VPP.IPSecTunProtects
      ∧ E.IsDecodableSublist E.ModelSecurityAssociation E.unmarshalSecurityAssociation
          VppIPSecSA.kvdata VppIPSecSA.Value list c.VPP.IPSecSAs
      ∧ E.IsDecodableSublist E.ModelSecurityPolicyDatabase E.unmarshalSecurityPolicyDatabase
          VppIPSecSPD.kvdata VppIPSecSPD.Value list c.VPP.IPSecSPDs := by
  refine ⟨retrieveConfig.classify E list, retrieveConfig_of_list E handler out list hexec hlist,
    ?_⟩
  rw [retrieveConfig.classify_eq E hd list]
  exact ⟨E.isDecodableSublist_filterMap_pick _ _ _ _ _ (fun _ _ => rfl) (fun _ _ => rfl) list,
    E.isDecodableSublist_filterMap_pick _ _ _ _ _ (fun _ _ => rfl) (fun _ _ => rfl) list,
    E.isDecodableSublist_filterMap_pick _ _ _ _ _ (fun _ _ => rfl) (fun _ _ => rfl) list,
    E.isDecodableSublist_filterMap_pick _ _ _ _ _ (fun _ _ => rfl) (fun _ _ => rfl) list,
    E.isDecodableSublist_filterMap_pick _ _ _ _ _ (fun _ _ => rfl) (fun _ _ => rfl) list,
    E.isDecodableSublist_filterMap_pick _ _ _ _ _ (fun _ _ => rfl) (fun _ _ => rfl) list⟩

/-- C1 at the sample dump, which holds an unresolvable and a malformed record. -/
theorem retrieveConfig_decodable_sublists_witness :
    (sampleEnv sampleDump).mappedNames.Nodup
      ∧ (sampleHandler sampleDumpText).ExecCmd "agentctl" dumpArgs = .ok sampleDumpText
      ∧ (sampleEnv sampleDump).unmarshalList sampleDumpText = .ok sampleDump
      ∧ ∃ c : Config,
          retrieveConfig (sampleEnv sampleDump) (sampleHandler sampleDumpText) = (some c, none)
          ∧ (sampleEnv sampleDump).IsDecodableSublist (sampleEnv sampleDump).vppModelInterface
              (sampleEnv sampleDump).unmarshalVppInterface
              VppInterface.kvdata VppInterface.Value sampleDump c.VPP.Interfaces
          ∧ (sampleEnv sampleDump).IsDecodableSublist (sampleEnv sampleDump).linuxModelInterface
              (sampleEnv sampleDump).unmarshalLinuxInterface
              LinuxInterface.kvdata LinuxInterface.Value sampleDump c.Linux.Interfaces
          ∧ (sampleEnv sampleDump).IsDecodableSublist (sampleEnv sampleDump).ModelXConnectPair
              (sampleEnv sampleDump).unmarshalXConnectPair
              VppL2XConnect.kvdata VppL2XConnect.Value sampleDump c.VPP.L2XConnects
          ∧ (sampleEnv sampleDump).IsDecodableSublist
              (sampleEnv sampleDump).ModelTunnelProtection
              (sampleEnv sampleDump).unmarshalTunnelProtection
              VppIPSecTunProtect.kvdata VppIPSecTunProtect.Value sampleDump
              c.VPP.IPSecTunProtects
          ∧ (sampleEnv sampleDump).IsDecodableSublist
              (sampleEnv sampleDump).ModelSecurityAssociation
              (sampleEnv sampleDump).unmarshalSecurityAssociation
              VppIPSecSA.kvdata VppIPSecSA.Value sampleDump c.VPP.IPSecSAs
          ∧ (sampleEnv sampleDump).IsDecodableSublist
              (sampleEnv sampleDump).ModelSecurityPolicyDatabase
              (sampleEnv sampleDump).unmarshalSecurityPolicyDatabase
              VppIPSecSPD.kvdata VppIPSecSPD.Value sampleDump c.VPP.IPSecSPDs :=
  ⟨by decide, rfl, rfl,
    retrieveConfig_decodable_sublists (sampleEnv sampleDump) (sampleHandler sampleDumpText)
      sampleDumpText sampleDump (by decide) rfl rfl⟩

/-- One decodable record of a mapped model adds exactly one typed record. -/
theorem retrieveConfig.step_zero_total (E : Env) (hd : E.mappedNames.Nodup) (item : kvdata)
    (h : E.mappedAndDecodes item = true) :
    (retrieveConfig.step E Config.zero item).total = 1 := by
  have hd2 := hd
  simp only [Env.mappedNames, List.nodup_cons, List.mem_cons, List.mem_singleton, not_or,
    List.not_mem_nil, not_false_eq_true, List.nodup_nil, and_true] at hd2
  obtain ⟨⟨h12, h13, h14, h15, h16⟩, ⟨h23, h24, h25, h26⟩, ⟨h34, h35, h36⟩, ⟨h45, h46⟩, h56⟩ :=
    hd2
  rw [retrieveConfig.step_zero E hd]
  simp only [Env.mappedAndDecodes, Bool.or_eq_true, Bool.and_eq_true] at h
  unfold Env.keyResolvesTo payloadDecodes at h
  unfold Config.total Env.pick Env.keyResolvesTo
  cases hm : E.GetModelForKey item.Key with
  | error e => simp [hm] at h
  | ok model =>
    obtain ⟨name⟩ := model
    simp only [hm, decide_eq_true_eq] at h ⊢
    rcases h with ((((⟨c, hu⟩ | ⟨c, hu⟩) | ⟨c, hu⟩) | ⟨c, hu⟩) | ⟨c, hu⟩) | ⟨c, hu⟩ <;>
      subst c <;>
      split at hu <;> simp_all
    all_goals simp [Ne.symm, *]

theorem retrieveConfig.classify_total (E : Env) (hd : E.mappedNames.Nodup) (list : List kvdata)
    (hall : ∀ item ∈ list, E.mappedAndDecodes item = true) :
    (retrieveConfig.classify E list).total = list.length := by
  induction list with
  | nil => rfl
  | cons item rest ih =>
    rw [retrieveConfig.classify_cons, Config.total_append,
      retrieveConfig.step_zero_total E hd item (hall item (List.mem_cons_self _ _)),
      ih (fun x hx => hall x (List.mem_cons_of_mem _ hx)), List.length_cons]
    omega

/-- C2, refuted as stated: in `routeDump` every key resolves to a model and every payload is
well formed, `retrieveConfig` returns no error, yet the returned `Config` holds one record while
the dump holds two (the route record resolves to a model outside the six mapped ones). -/
theorem retrieveConfig_total_counterexample :
    (∀ item ∈ routeDump, (sampleEnv routeDump).keyResolves item = true
        ∧ (sampleEnv routeDump).payloadWellFormed item = true)
      ∧ retrieveConfig (sampleEnv routeDump) (sampleHandler sampleDumpText)
          = (some routeConfig, none)
      ∧ routeConfig.total = 1 ∧ routeDump.length = 2
      ∧ ¬ (∃ c : Config,
            retrieveConfig (sampleEnv routeDump) (sampleHandler sampleDumpText) = (some c, none)
            ∧ c.total = routeDump.length) := by
  have heval : retrieveConfig (sampleEnv routeDump) (sampleHandler sampleDumpText)
      = (some routeConfig, none) := by decide
  refine ⟨by decide, heval, by decide, by decide, ?_⟩
  rintro ⟨c, hc, htotal⟩
  rw [heval] at hc
  have hcfg : routeConfig = c := by
    injection hc with h1 _
    injection h1
  subst hcfg
  revert htotal
  decide

/-- C2, amended. For every dump in which every record's key resolves to one of the six mapped
models and its payload decodes under that model, `retrieveConfig` returns no error and the
total number of records of the returned `Config`, summed over its six sequences, equals the
number of records of the dump. The six registered model names are pairwise different. -/
theorem retrieveConfig_total_of_mapped (E : Env) (handler : Handler) (out : String)
    (list : List kvdata) (hd : E.mappedNames.Nodup)
    (hexec : handler.ExecCmd "agentctl" dumpArgs = .ok out)
    (hlist : E.unmarshalList out = .ok list)
    (hall : ∀ item ∈ list, E.mappedAndDecodes item = true) :
    ∃ c : Config, retrieveConfig E handler = (some c, none) ∧ c.total = list.length :=
  ⟨retrieveConfig.classify E list, retrieveConfig_of_list E handler out list hexec hlist,
    retrieveConfig.classify_total E hd list hall⟩

/-- C2 (amended) at a dump of three decodable records of mapped models. -/
theorem retrieveConfig_total_of_mapped_witness :
    (sampleEnv [recLoop1, recXconn1, recSA1]).mappedNames.Nodup
      ∧ (sampleHandler sampleDumpText).ExecCmd "agentctl" dumpArgs = .ok sampleDumpText
      ∧ (sampleEnv [recLoop1, recXconn1, recSA1]).unmarshalList sampleDumpText
          = .ok [recLoop1, recXconn1, recSA1]
      ∧ (∀ item ∈ [recLoop1, recXconn1, recSA1],
          (sampleEnv [recLoop1, recXconn1, recSA1]).mappedAndDecodes item = true)
      ∧ ∃ c : Config,
          retrieveConfig (sampleEnv [recLoop1, recXconn1, recSA1]) (sampleHandler sampleDumpText)
            = (some c, none)
          ∧ c.total = [recLoop1, recXconn1, recSA1].length :=
  ⟨by decide, rfl, rfl, by decide,
    retrieveConfig_total_of_mapped (sampleEnv [recLoop1, recXconn1, recSA1])
      (sampleHandler sampleDumpText) sampleDumpText [recLoop1, recXconn1, recSA1]
      (by decide) rfl rfl (by decide)⟩

/-- The record lists of the classified dump are six filters of the dump. -/
theorem retrieveConfig.classify_records (E : Env) (hd : E.mappedNames.Nodup)
    (list : List kvdata) :
    (retrieveConfig.classify E list).records =
      [list.filter (fun item =>
          E.keyResolvesTo E.vppModelInterface item
            && payloadDecodes E.unmarshalVppInterface item),
       list.filter (fun item =>
          E.keyResolvesTo E.linuxModelInterface item
            && payloadDecodes E.unmarshalLinuxInterface item),
       list.filter (fun item =>
          E.keyResolvesTo E.ModelXConnectPair item
            && payloadDecodes E.unmarshalXConnectPair item),
       list.filter (fun item =>
          E.keyResolvesTo E.ModelTunnelProtection item
            && payloadDecodes E.unmarshalTunnelProtection item),
       list.filter (fun item =>
          E.keyResolvesTo E.ModelSecurityAssociation item
            && payloadDecodes E.unmarshalSecurityAssociation item),
       list.filter (fun item =>
          E.keyResolvesTo E.ModelSecurityPolicyDatabase item
            && payloadDecodes E.unmarshalSecurityPolicyDatabase item)] := by
  rw [retrieveConfig.classify_eq E hd list]
  simp only [Config.records]
  rw [(E.isDecodableSublist_filterMap_pick E.vppModelInterface E.unmarshalVppInterface
        VppInterface.mk VppInterface.kvdata VppInterface.Value (fun _ _ => rfl)
        (fun _ _ => rfl) list).1,
    (E.isDecodableSublist_filterMap_pick E.linuxModelInterface E.unmarshalLinuxInterface
        LinuxInterface.mk LinuxInterface.kvdata LinuxInterface.Value (fun _ _ => rfl)
        (fun _ _ => rfl) list).1,
    (E.isDecodableSublist_filterMap_pick E.ModelXConnectPair E.unmarshalXConnectPair
        VppL2XConnect.mk VppL2XConnect.kvdata VppL2XConnect.Value (fun _ _ => rfl)
        (fun _ _ => rfl) list).1,
    (E.isDecodableSublist_filterMap_pick E.ModelTunnelProtection E.unmarshalTunnelProtection
        VppIPSecTunProtect.mk VppIPSecTunProtect.kvdata VppIPSecTunProtect.Value
        (fun _ _ => rfl) (fun _ _ => rfl) list).1,
    (E.isDecodableSublist_filterMap_pick E.ModelSecurityAssociation
        E.unmarshalSecurityAssociation VppIPSecSA.mk VppIPSecSA.kvdata VppIPSecSA.Value
        (fun _ _ => rfl) (fun _ _ => rfl) list).1,
    (E.isDecodableSublist_filterMap_pick E.ModelSecurityPolicyDatabase
        E.unmarshalSecurityPolicyDatabase VppIPSecSPD.mk VppIPSecSPD.kvdata VppIPSecSPD.Value
        (fun _ _ => rfl) (fun _ _ => rfl) list).1]

/-- A key resolves to at most one of the six mapped models when their names differ: the six
resolution flags are all false, or exactly one is true. -/
theorem Env.keyResolvesTo_exclusive (E : Env) (hd : E.mappedNames.Nodup) (r : kvdata) :
    [E.keyResolvesTo E.vppModelInterface r, E.keyResolvesTo E.linuxModelInterface r,
      E.keyResolvesTo E.ModelXConnectPair r, E.keyResolvesTo E.ModelTunnelProtection r,
      E.keyResolvesTo E.ModelSecurityAssociation r,
      E.keyResolvesTo E.ModelSecurityPolicyDatabase r].count true ≤ 1 := by
  simp only [Env.mappedNames, List.nodup_cons, List.mem_cons, List.mem_singleton, not_or,
    List.not_mem_nil, not_false_eq_true, List.nodup_nil, and_true] at hd
  obtain ⟨⟨h12, h13, h14, h15, h16⟩, ⟨h23, h24, h25, h26⟩, ⟨h34, h35, h36⟩, ⟨h45, h46⟩, h56⟩ := hd
  unfold Env.keyResolvesTo
  cases hm : E.GetModelForKey r.Key with
  | error e => simp
  | ok model =>
    obtain ⟨name⟩ := model
    by_cases c1 : name = E.vppModelInterface.Name
    · subst c1; simp [*]
    by_cases c2 : name = E.linuxModelInterface.Name
    · subst c2; simp [*]
    by_cases c3 : name = E.ModelXConnectPair.Name
    · subst c3; simp [*]
    by_cases c4 : name = E.ModelTunnelProtection.Name
    · subst c4; simp [*]
    by_cases c5 : name = E.ModelSecurityAssociation.Name
    · subst c5; simp [*]
    by_cases c6 : name = E.ModelSecurityPolicyDatabase.Name
    · subst c6; simp [*]
    simp [*]

/-- Membership in a filtered dump implies the first filter condition. -/
theorem indicator_mem_filter_le (r : kvdata) (list : List kvdata) (k d : kvdata → Bool) :
    (if decide (r ∈ List.filter (fun item => k item && d item) list) = true then 1 else 0)
      ≤ (if (k r == true) = true then 1 else 0) := by
  by_cases h : r ∈ List.filter (fun item => k item && d item) list
  · have h2 := (List.mem_filter.mp h).2
    simp only [Bool.and_eq_true] at h2
    simp [h, h2.1]
  · simp [h]

/-- A record whose key does not resolve, or whose payload fails to decode under the mapped model
its key resolves to, passes none of the six selections. -/
theorem Env.not_mappedAndDecodes_of_bad (E : Env) (hd : E.mappedNames.Nodup) (r : kvdata)
    (hbad : E.keyResolves r = false ∨ E.payloadWellFormed r = false) :
    (E.keyResolvesTo E.vppModelInterface r && payloadDecodes E.unmarshalVppInterface r) = false
    ∧ (E.keyResolvesTo E.linuxModelInterface r
        && payloadDecodes E.unmarshalLinuxInterface r) = false
    ∧ (E.keyResolvesTo E.ModelXConnectPair r && payloadDecodes E.unmarshalXConnectPair r) = false
    ∧ (E.keyResolvesTo E.ModelTunnelProtection r
        && payloadDecodes E.unmarshalTunnelProtection r) = false
    ∧ (E.keyResolvesTo E.ModelSecurityAssociation r
        && payloadDecodes E.unmarshalSecurityAssociation r) = false
    ∧ (E.keyResolvesTo E.ModelSecurityPolicyDatabase r
        && payloadDecodes E.unmarshalSecurityPolicyDatabase r) = false := by
  simp only [Env.mappedNames, List.nodup_cons, List.mem_cons, List.mem_singleton, not_or,
    List.not_mem_nil, not_false_eq_true, List.nodup_nil, and_true] at hd
  obtain ⟨⟨h12, h13, h14, h15, h16⟩, ⟨h23, h24, h25, h26⟩, ⟨h34, h35, h36⟩, ⟨h45, h46⟩, h56⟩ := hd
  unfold Env.keyResolves Env.payloadWellFormed at hbad
  unfold Env.keyResolvesTo at hbad ⊢
  cases hm : E.GetModelForKey r.Key with
  | error e => simp
  | ok model =>
    obtain ⟨name⟩ := model
    simp only [hm] at hbad
    by_cases c1 : name = E.vppModelInterface.Name
    · subst c1; simp_all
    by_cases c2 : name = E.linuxModelInterface.Name
    · subst c2; simp_all
    by_cases c3 : name = E.ModelXConnectPair.Name
    · subst c3; simp_all
    by_cases c4 : name = E.ModelTunnelProtection.Name
    · subst c4; simp_all
    by_cases c5 : name = E.ModelSecurityAssociation.Name
    · subst c5; simp_all
    by_cases c6 : name = E.ModelSecurityPolicyDatabase.Name
    · subst c6; simp_all
    simp_all

/-- C3. For every dump, each raw record `r` is held by at most one of the six sequences of the
`Config` returned by `retrieveConfig`; it occurs in a sequence at most as often as it occurs in
the dump (so at most once when the dump lists it once); and a record whose key cannot be
resolved to a model, or whose payload fails to decode under the mapped model its key resolves
to, is held by none. The six registered model names are pairwise different. -/
theorem retrieveConfig_partition (E : Env) (handler : Handler) (out : String)
    (list : List kvdata) (hd : E.mappedNames.Nodup)
    (hexec : handler.ExecCmd "agentctl" dumpArgs = .ok out)
    (hlist : E.unmarshalList out = .ok list) :
    ∃ c : Config, retrieveConfig E handler = (some c, none)
      ∧ ∀ r : kvdata,
          (c.records.filter (fun s => decide (r ∈ s))).length ≤ 1
          ∧ (∀ s ∈ c.records, s.count r ≤ list.count r)
          ∧ (list.count r = 1 → ∀ s ∈ c.records, s.count r ≤ 1)
          ∧ (E.keyResolves r = false ∨ E.payloadWellFormed r = false →
              ∀ s ∈ c.records, r ∉ s) := by
  refine ⟨retrieveConfig.classify E list, retrieveConfig_of_list E handler out list hexec hlist,
    ?_⟩
  intro r
  have hcount : ∀ s ∈ (retrieveConfig.classify E list).records, s.count r ≤ list.count r := by
    intro s hs
    rw [retrieveConfig.classify_records E hd list] at hs
    simp only [List.mem_cons, List.mem_singleton, List.not_mem_nil, or_false] at hs
    rcases hs with h | h | h | h | h | h <;> subst h <;>
      exact (List.filter_sublist _).count_le _
  refine ⟨?_, hcount, fun h1 s hs => h1 ▸ hcount s hs, ?_⟩
  · have hex := E.keyResolvesTo_exclusive hd r
    rw [retrieveConfig.classify_records E hd list, ← List.countP_eq_length_filter]
    simp only [List.countP_cons, List.countP_nil, List.count_cons, List.count_nil] at hex ⊢
    have h1 := indicator_mem_filter_le r list (E.keyResolvesTo E.vppModelInterface)
      (payloadDecodes E.unmarshalVppInterface)
    have h2 := indicator_mem_filter_le r list (E.keyResolvesTo E.linuxModelInterface)
      (payloadDecodes E.unmarshalLinuxInterface)
    have h3 := indicator_mem_filter_le r list (E.keyResolvesTo E.ModelXConnectPair)
      (payloadDecodes E.unmarshalXConnectPair)
    have h4 := indicator_mem_filter_le r list (E.keyResolvesTo E.ModelTunnelProtection)
      (payloadDecodes E.unmarshalTunnelProtection)
    have h5 := indicator_mem_filter_le r list (E.keyResolvesTo E.ModelSecurityAssociation)
      (payloadDecodes E.unmarshalSecurityAssociation)
    have h6 := indicator_mem_filter_le r list (E.keyResolvesTo E.ModelSecurityPolicyDatabase)
      (payloadDecodes E.unmarshalSecurityPolicyDatabase)
    omega
  · intro hbad s hs
    rw [retrieveConfig.classify_records E hd list] at hs
    simp only [List.mem_cons, List.mem_singleton, List.not_mem_nil, or_false] at hs
    obtain ⟨b1, b2, b3, b4, b5, b6⟩ := E.not_mappedAndDecodes_of_bad hd r hbad
    rcases hs with h | h | h | h | h | h <;> subst h <;> simp [List.mem_filter, *]

/-- C3 at the sample dump. -/
theorem retrieveConfig_partition_witness :
    (sampleEnv sampleDump).mappedNames.Nodup
      ∧ (sampleHandler sampleDumpText).ExecCmd "agentctl" dumpArgs = .ok sampleDumpText
      ∧ (sampleEnv sampleDump).unmarshalList sampleDumpText = .ok sampleDump
      ∧ ∃ c : Config,
          retrieveConfig (sampleEnv sampleDump) (sampleHandler sampleDumpText) = (some c, none)
          ∧ ∀ r : kvdata,
              (c.records.filter (fun s => decide (r ∈ s))).length ≤ 1
              ∧ (∀ s ∈ c.records, s.count r ≤ sampleDump.count r)
              ∧ (sampleDump.count r = 1 → ∀ s ∈ c.records, s.count r ≤ 1)
              ∧ ((sampleEnv sampleDump).keyResolves r = false
                    ∨ (sampleEnv sampleDump).payloadWellFormed r = false →
                  ∀ s ∈ c.records, r ∉ s) :=
  ⟨by decide, rfl, rfl,
    retrieveConfig_partition (sampleEnv sampleDump) (sampleHandler sampleDumpText)
      sampleDumpText sampleDump (by decide) rfl rfl⟩

/-- C4. `retrieveConfig` returns an error exactly when the dump command fails or the dump text
does not deserialize into a list of raw records; whenever it returns an error the returned
`Config` is nil; and on a dump that deserializes it returns the classified `Config` and no
error, whatever model resolutions and payload decodings fail on the way. -/
theorem retrieveConfig_error_iff (E : Env) (handler : Handler) :
    ((retrieveConfig E handler).2 ≠ none ↔
        (∃ err, handler.ExecCmd "agentctl" dumpArgs = .error err)
        ∨ (∃ out err, handler.ExecCmd "agentctl" dumpArgs = .ok out
              ∧ E.unmarshalList out = .error err))
      ∧ ((retrieveConfig E handler).2 ≠ none → (retrieveConfig E handler).1 = none)
      ∧ (∀ out list, handler.ExecCmd "agentctl" dumpArgs = .ok out →
            E.unmarshalList out = .ok list →
            retrieveConfig E handler = (some (retrieveConfig.classify E list), none)) := by
  refine ⟨?_, ?_, fun out list hexec hlist => retrieveConfig_of_list E handler out list hexec hlist⟩
  · unfold retrieveConfig runAgentctlCmd
    cases hexec : handler.ExecCmd "agentctl" dumpArgs with
    | error err => simp
    | ok out =>
      cases hlist : E.unmarshalList out with
      | error err => simp [hlist]
      | ok list => simp [hlist]
  · unfold retrieveConfig runAgentctlCmd
    cases hexec : handler.ExecCmd "agentctl" dumpArgs with
    | error err => simp
    | ok out =>
      cases hlist : E.unmarshalList out with
      | error err => simp [hlist]
      | ok list => simp [hlist]

/-! ## Claims about the queries -/

/-- C5, refuted as stated: on a list whose first element has a nil `Value` and whose second
element receives on `loop1`, `FindL2XconnFor` panics instead of returning the second element,
the first one whose `ReceiveInterface` is `loop1`; on the one-element list of the nil-valued
record, where nothing matches, it panics instead of returning nil. -/
theorem FindL2XconnFor_counterexample :
    FindL2XconnFor "loop1" [xconnNil, xconnLoop1] = .error .nilPointerDereference
      ∧ [xconnNil, xconnLoop1].find? (VppL2XConnect.references "loop1") = some xconnLoop1
      ∧ FindL2XconnFor "loop1" [xconnNil, xconnLoop1]
          ≠ .ok ([xconnNil, xconnLoop1].find? (VppL2XConnect.references "loop1"))
      ∧ FindL2XconnFor "loop1" [xconnNil] = .error .nilPointerDereference
      ∧ (∀ x ∈ [xconnNil], VppL2XConnect.references "loop1" x = false)
      ∧ FindL2XconnFor "loop1" [xconnNil] ≠ .ok none := by
  decide

/-- C5, amended. For every interface name and every list of cross-connects in which no element
with a nil `Value` stands before the first element whose `ReceiveInterface` or
`TransmitInterface` equals the name (nor anywhere, when no element matches), `FindL2XconnFor`
returns the first element in list order that matches, also when several match, and returns nil
when no element matches or the list is empty. -/
theorem FindL2XconnFor_first_match (intfName : String) (l : List VppL2XConnect)
    (hnil : ∀ x ∈ l.takeWhile (fun x => !VppL2XConnect.references intfName x),
      x.Value ≠ none) :
    FindL2XconnFor intfName l = .ok (l.find? (VppL2XConnect.references intfName))
      ∧ (∀ pre x post, l = pre ++ x :: post →
          (∀ y ∈ pre, VppL2XConnect.references intfName y = false) →
          VppL2XConnect.references intfName x = true →
          FindL2XconnFor intfName l = .ok (some x))
      ∧ ((∀ y ∈ l, VppL2XConnect.references intfName y = false) →
          FindL2XconnFor intfName l = .ok none)
      ∧ (l = [] → FindL2XconnFor intfName l = .ok none) := by
  have hmain : FindL2XconnFor intfName l = .ok (l.find? (VppL2XConnect.references intfName)) := by
    induction l with
    | nil => rfl
    | cons x rest ih =>
      cases hv : x.Value with
      | none =>
        have hx : VppL2XConnect.references intfName x = false := by
          simp [VppL2XConnect.references, hv]
        exact absurd hv (hnil x (by simp [List.takeWhile_cons, hx]))
      | some v =>
        by_cases hx : intfName = v.ReceiveInterface ∨ intfName = v.TransmitInterface
        · have hr : VppL2XConnect.references intfName x = true := by
            simpa [VppL2XConnect.references, hv] using hx
          simp only [FindL2XconnFor, hv, List.find?_cons, hr]
          simp [hx]
        · have hr : VppL2XConnect.references intfName x = false := by
            simpa [VppL2XConnect.references, hv] using hx
          simp only [FindL2XconnFor, hv, List.find?_cons, hr]
          have hrest := ih (fun y hy => hnil y (by
            simp only [List.takeWhile_cons, hr, Bool.not_false, if_true]
            exact List.mem_cons_of_mem _ hy))
          simpa [hx] using hrest
  refine ⟨hmain, ?_, ?_, ?_⟩
  · intro pre x post hl hpre hx
    rw [hmain, hl, List.find?_append]
    have h1 : pre.find? (VppL2XConnect.references intfName) = none := by
      rw [List.find?_eq_none]
      intro y hy
      simp [hpre y hy]
    simp [h1, List.find?_cons, hx]
  · intro hno
    rw [hmain]
    congr 1
    rw [List.find?_eq_none]
    intro y hy
    simp [hno y hy]
  · intro hl
    subst hl
    rfl

/-- C5 (amended) at a list with two matching cross-connects after a non-matching one and
before a nil-valued one. -/
theorem FindL2XconnFor_first_match_witness :
    (∀ x ∈ [xconnOther, xconnMemif1, xconnLoop1, xconnNil].takeWhile
        (fun x => !VppL2XConnect.references "loop1" x), x.Value ≠ none)
      ∧ FindL2XconnFor "loop1" [xconnOther, xconnMemif1, xconnLoop1, xconnNil]
          = .ok (some xconnMemif1) :=
  ⟨by decide,
    (FindL2XconnFor_first_match "loop1" [xconnOther, xconnMemif1, xconnLoop1, xconnNil]
      (by decide)).1.trans (by decide)⟩

/-- C6, refuted as stated: on a list whose first element has a nil `Value` and whose second
element is bound to `ipip0`, `FindIPSecTunProtectFor` panics instead of returning the second
element, the first one whose `Interface` is `ipip0`; on the one-element list of the nil-valued
record, where nothing matches, it panics instead of returning nil. -/
theorem FindIPSecTunProtectFor_counterexample :
    FindIPSecTunProtectFor "ipip0" [tunNil, tunIpip0 "a"] = .error .nilPointerDereference
      ∧ [tunNil, tunIpip0 "a"].find? (VppIPSecTunProtect.protects "ipip0") = some (tunIpip0 "a")
      ∧ FindIPSecTunProtectFor "ipip0" [tunNil, tunIpip0 "a"]
          ≠ .ok ([tunNil, tunIpip0 "a"].find? (VppIPSecTunProtect.protects "ipip0"))
      ∧ FindIPSecTunProtectFor "ipip0" [tunNil] = .error .nilPointerDereference
      ∧ (∀ x ∈ [tunNil], VppIPSecTunProtect.protects "ipip0" x = false)
      ∧ FindIPSecTunProtectFor "ipip0" [tunNil] ≠ .ok none := by
  decide

/-- C6, amended. For every interface name and every list of tunnel protections in which no
element with a nil `Value` stands before the first element whose `Interface` equals the name
(nor anywhere, when no element matches), `FindIPSecTunProtectFor` returns the first element in
list order that matches, also when several match, and returns nil when no element matches or
the list is empty. -/
theorem FindIPSecTunProtectFor_first_match (intfName : String) (l : List VppIPSecTunProtect)
    (hnil : ∀ x ∈ l.takeWhile (fun x => !VppIPSecTunProtect.protects intfName x),
      x.Value ≠ none) :
    FindIPSecTunProtectFor intfName l = .ok (l.find? (VppIPSecTunProtect.protects intfName))
      ∧ (∀ pre x post, l = pre ++ x :: post →
          (∀ y ∈ pre, VppIPSecTunProtect.protects intfName y = false) →
          VppIPSecTunProtect.protects intfName x = true →
          FindIPSecTunProtectFor intfName l = .ok (some x))
      ∧ ((∀ y ∈ l, VppIPSecTunProtect.protects intfName y = false) →
          FindIPSecTunProtectFor intfName l = .ok none)
      ∧ (l = [] → FindIPSecTunProtectFor intfName l = .ok none) := by
  have hmain : FindIPSecTunProtectFor intfName l
      = .ok (l.find? (VppIPSecTunProtect.protects intfName)) := by
    induction l with
    | nil => rfl
    | cons x rest ih =>
      cases hv : x.Value with
      | none =>
        have hx : VppIPSecTunProtect.protects intfName x = false := by
          simp [VppIPSecTunProtect.protects, hv]
        exact absurd hv (hnil x (by simp [List.takeWhile_cons, hx]))
      | some v =>
        by_cases hx : intfName = v.Interface
        · have hr : VppIPSecTunProtect.protects intfName x = true := by
            simpa [VppIPSecTunProtect.protects, hv] using hx
          simp only [FindIPSecTunProtectFor, hv, List.find?_cons, hr]
          simp [hx]
        · have hr : VppIPSecTunProtect.protects intfName x = false := by
            simpa [VppIPSecTunProtect.protects, hv] using hx
          simp only [FindIPSecTunProtectFor, hv, List.find?_cons, hr]
          have hrest := ih (fun y hy => hnil y (by
            simp only [List.takeWhile_cons, hr, Bool.not_false, if_true]
            exact List.mem_cons_of_mem _ hy))
          simpa [hx] using hrest
  refine ⟨hmain, ?_, ?_, ?_⟩
  · intro pre x post hl hpre hx
    rw [hmain, hl, List.find?_append]
    have h1 : pre.find? (VppIPSecTunProtect.protects intfName) = none := by
      rw [List.find?_eq_none]
      intro y hy
      simp [hpre y hy]
    simp [h1, List.find?_cons, hx]
  · intro hno
    rw [hmain]
    congr 1
    rw [List.find?_eq_none]
    intro y hy
    simp [hno y hy]
  · intro hl
    subst hl
    rfl

/-- C6 (amended) at a list with two protections of `ipip0` after one of `ipip1` and before a
nil-valued one. -/
theorem FindIPSecTunProtectFor_first_match_witness :
    (∀ x ∈ [tunIpip1, tunIpip0 "first", tunIpip0 "second", tunNil].takeWhile
        (fun x => !VppIPSecTunProtect.protects "ipip0" x), x.Value ≠ none)
      ∧ FindIPSecTunProtectFor "ipip0" [tunIpip1, tunIpip0 "first", tunIpip0 "second", tunNil]
          = .ok (some (tunIpip0 "first")) :=
  ⟨by decide,
    (FindIPSecTunProtectFor_first_match "ipip0"
      [tunIpip1, tunIpip0 "first", tunIpip0 "second", tunNil] (by decide)).1.trans (by decide)⟩

/-- The loop of `HasVppInterfaceType` when no nil `Value` precedes the first match. -/
theorem Config.HasVppInterfaceType.loop_eq (typ : vpp_interfaces.Interface_Type)
    (l : List VppInterface)
    (hnil : ∀ x ∈ l.takeWhile (fun x => !VppInterface.hasType typ x), x.Value ≠ none) :
    Config.HasVppInterfaceType.loop typ l = .ok (l.any (VppInterface.hasType typ)) := by
  induction l with
  | nil => rfl
  | cons x rest ih =>
    cases hv : x.Value with
    | none =>
      have hx : VppInterface.hasType typ x = false := by simp [VppInterface.hasType, hv]
      exact absurd hv (hnil x (by simp [List.takeWhile_cons, hx]))
    | some v =>
      by_cases hx : v.Typ = typ
      · have hr : VppInterface.hasType typ x = true := by
          simpa [VppInterface.hasType, hv] using hx
        simp [Config.HasVppInterfaceType.loop, hv, hx, hr]
      · have hr : VppInterface.hasType typ x = false := by
          simpa [VppInterface.hasType, hv] using hx
        have hrest := ih (fun y hy => hnil y (by
          simp only [List.takeWhile_cons, hr, Bool.not_false, if_true]
          exact List.mem_cons_of_mem _ hy))
        simp [Config.HasVppInterfaceType.loop, hv, hx, hr, hrest]

/-- C7, refuted as stated: in a `Config` whose first VPP interface has a nil `Value` and whose
second has type 2, some element of `VPP.Interfaces` has `Value.Type` equal to 2, yet
`HasVppInterfaceType(2)` is not true: the call panics. -/
theorem HasVppInterfaceType_counterexample :
    (∃ x ∈ (configOfInterfaces [ifaceNil, ifaceLoop1]).VPP.Interfaces,
        ∃ v, x.Value = some v ∧ v.Typ = 2)
      ∧ Config.HasVppInterfaceType (some (configOfInterfaces [ifaceNil, ifaceLoop1])) 2
          = .error .nilPointerDereference
      ∧ Config.HasVppInterfaceType (some (configOfInterfaces [ifaceNil, ifaceLoop1])) 2
          ≠ .ok true :=
  ⟨⟨ifaceLoop1, by decide, _, rfl, rfl⟩, by decide, by decide⟩

/-- C7, amended. For every `Config` and interface type `t` such that no element of
`VPP.Interfaces` with a nil `Value` stands before the first element of type `t` (nor anywhere,
when there is none), `HasVppInterfaceType(t)` returns a boolean that is true if and only if some
element of `VPP.Interfaces` has `Value.Type` equal to `t`; and for every `Config` the result
does not change when the Linux-side interfaces are replaced. -/
theorem HasVppInterfaceType_iff (c : Config) (typ : vpp_interfaces.Interface_Type)
    (hnil : ∀ x ∈ c.VPP.Interfaces.takeWhile (fun x => !VppInterface.hasType typ x),
      x.Value ≠ none) :
    (∃ b, Config.HasVppInterfaceType (some c) typ = .ok b
        ∧ (b = true ↔ ∃ x ∈ c.VPP.Interfaces, ∃ v, x.Value = some v ∧ v.Typ = typ))
      ∧ (∀ linux : Config.LinuxPart,
          Config.HasVppInterfaceType (some { c with Linux := linux }) typ
            = Config.HasVppInterfaceType (some c) typ) := by
  refine ⟨⟨c.VPP.Interfaces.any (VppInterface.hasType typ),
    Config.HasVppInterfaceType.loop_eq typ c.VPP.Interfaces hnil, ?_⟩, fun _ => rfl⟩
  rw [List.any_eq_true]
  constructor
  · rintro ⟨x, hx, hty⟩
    refine ⟨x, hx, ?_⟩
    unfold VppInterface.hasType at hty
    cases hv : x.Value with
    | none => simp [hv] at hty
    | some v => exact ⟨v, rfl, by simpa [hv] using hty⟩
  · rintro ⟨x, hx, v, hv, hty⟩
    exact ⟨x, hx, by simp [VppInterface.hasType, hv, hty]⟩

/-- C7 (amended) at a `Config` with a memif and a loopback interface and one Linux
interface. -/
theorem HasVppInterfaceType_iff_witness :
    (∀ x ∈ ({ configOfInterfaces [ifaceMemif1, ifaceLoop1, ifaceNil] with
              Linux := { Interfaces := [linuxVeth1] } } : Config).VPP.Interfaces.takeWhile
        (fun x => !VppInterface.hasType 2 x), x.Value ≠ none)
      ∧ ((∃ b, Config.HasVppInterfaceType
            (some { configOfInterfaces [ifaceMemif1, ifaceLoop1, ifaceNil] with
                    Linux := { Interfaces := [linuxVeth1] } }) 2 = .ok b
          ∧ (b = true ↔
              ∃ x ∈ ({ configOfInterfaces [ifaceMemif1, ifaceLoop1, ifaceNil] with
                       Linux := { Interfaces := [linuxVeth1] } } : Config).VPP.Interfaces,
                ∃ v, x.Value = some v ∧ v.Typ = 2))
        ∧ (∀ linux : Config.LinuxPart,
            Config.HasVppInterfaceType
                (some { ({ configOfInterfaces [ifaceMemif1, ifaceLoop1, ifaceNil] with
                           Linux := { Interfaces := [linuxVeth1] } } : Config) with
                        Linux := linux }) 2
              = Config.HasVppInterfaceType
                  (some { configOfInterfaces [ifaceMemif1, ifaceLoop1, ifaceNil] with
                          Linux := { Interfaces := [linuxVeth1] } }) 2)) :=
  ⟨by decide,
    HasVppInterfaceType_iff
      { configOfInterfaces [ifaceMemif1, ifaceLoop1, ifaceNil] with
        Linux := { Interfaces := [linuxVeth1] } } 2 (by decide)⟩

/-- C8. `HasAnyIPSecConfig` is false for a nil `Config`; for a non-nil `Config` it is true if
and only if at least one of `VPP.IPSecTunProtects`, `VPP.IPSecSAs`, `VPP.IPSecSPDs` is
non-empty; so it is false for the empty `Config` and true for a `Config` in which exactly one of
the three sequences holds exactly one element. -/
theorem HasAnyIPSecConfig_iff :
    HasAnyIPSecConfig none = false
      ∧ (∀ c : Config, HasAnyIPSecConfig (some c) = true ↔
          c.VPP.IPSecTunProtects ≠ [] ∨ c.VPP.IPSecSAs ≠ [] ∨ c.VPP.IPSecSPDs ≠ [])
      ∧ HasAnyIPSecConfig (some Config.zero) = false
      ∧ (∀ x, HasAnyIPSecConfig
          (some { Config.zero with VPP := { Config.zero.VPP with IPSecTunProtects := [x] } })
            = true)
      ∧ (∀ x, HasAnyIPSecConfig
          (some { Config.zero with VPP := { Config.zero.VPP with IPSecSAs := [x] } }) = true)
      ∧ (∀ x, HasAnyIPSecConfig
          (some { Config.zero with VPP := { Config.zero.VPP with IPSecSPDs := [x] } })
            = true) := by
  refine ⟨rfl, ?_, rfl, fun _ => rfl, fun _ => rfl, fun _ => rfl⟩
  intro c
  simp only [HasAnyIPSecConfig, gt_iff_lt, List.length_pos, Bool.or_eq_true, decide_eq_true_eq,
    ite_eq_left_iff, not_or, Bool.false_eq_true, imp_false, not_and, not_not, ne_eq]
  tauto

/-! ## The pattern matcher -/

theorem dropLit_append (l r : List Char) : dropLit l (l ++ r) = some r := by
  induction l with
  | nil => cases r <;> rfl
  | cons a l ih => simp [dropLit, ih]

theorem eq_append_of_dropLit (l s r : List Char) (h : dropLit l s = some r) : s = l ++ r := by
  induction l generalizing s with
  | nil =>
    cases s <;> simp_all [dropLit]
  | cons a l ih =>
    cases s with
    | nil => simp [dropLit] at h
    | cons ch s =>
      simp only [dropLit] at h
      split at h
      · rename_i hac
        rw [hac, ih s h]
        rfl
      · cases h

/-- A run of `cls` characters followed by a character outside `cls`, or by nothing, is what
`takeWhile` keeps. -/
theorem takeWhile_run (cls : Char → Bool) (run rest : List Char)
    (hrun : ∀ ch ∈ run, cls ch = true) (hrest : ∀ ch ∈ rest.head?, cls ch = false) :
    (run ++ rest).takeWhile cls = run ∧ (run ++ rest).dropWhile cls = rest := by
  induction run with
  | nil =>
    cases rest with
    | nil => simp
    | cons ch rest =>
      have h := hrest ch (by simp)
      simp [List.takeWhile_cons, List.dropWhile_cons, h]
  | cons a run ih =>
    have ha := hrun a (List.mem_cons_self _ _)
    have := ih (fun ch hch => hrun ch (List.mem_cons_of_mem _ hch))
    simp [List.takeWhile_cons, List.dropWhile_cons, ha, this]

/-- The anchored match of `lit\s+(cls+)`, for a class without blanks: completeness. -/
theorem matchSeq_of_beginsWith (lit : String) (cls : Char → Bool)
    (hdisj : ∀ ch, cls ch = true → isSpaceRE ch = false)
    (ws tok rest : List Char) (hws : ws ≠ []) (hsp : ∀ ch ∈ ws, isSpaceRE ch = true)
    (htok : tok ≠ []) (hcls : ∀ ch ∈ tok, cls ch = true) :
    ReItem.matchSeq [.lit lit, .plus isSpaceRE, .group cls] (lit.toList ++ ws ++ tok ++ rest)
      = some ((tok ++ rest).dropWhile cls, [(tok ++ rest).takeWhile cls])
    ∧ (tok ++ rest).takeWhile cls ≠ [] := by
  obtain ⟨t, tok2, rfl⟩ := List.exists_cons_of_ne_nil htok
  have ht := hcls t (List.mem_cons_self _ _)
  have hsplit := takeWhile_run isSpaceRE ws (t :: tok2 ++ rest) hsp
    (by simp [hdisj t ht])
  have hne : (t :: tok2 ++ rest).takeWhile cls ≠ [] := by
    simp [List.takeWhile_cons, ht]
  refine ⟨?_, hne⟩
  have hassoc : lit.toList ++ ws ++ (t :: tok2) ++ rest
      = lit.toList ++ (ws ++ (t :: tok2 ++ rest)) := by simp
  rw [hassoc]
  simp only [ReItem.matchSeq, dropLit_append, hsplit.1, hsplit.2, hws, if_false, hne]

/-- The anchored match of `lit\s+(cls+)`: soundness. -/
theorem beginsWith_of_matchSeq (lit : String) (cls : Char → Bool) (s r : List Char)
    (caps : List (List Char))
    (h : ReItem.matchSeq [.lit lit, .plus isSpaceRE, .group cls] s = some (r, caps)) :
    BeginsWith lit cls s := by
  rw [ReItem.matchSeq] at h
  cases hl : dropLit lit.toList s with
  | none => rw [hl] at h; cases h
  | some r1 =>
    rw [hl] at h
    simp only at h
    rw [ReItem.matchSeq] at h
    by_cases hws : r1.takeWhile isSpaceRE = []
    · rw [if_pos hws] at h; cases h
    · rw [if_neg hws, ReItem.matchSeq] at h
      by_cases htok : (r1.dropWhile isSpaceRE).takeWhile cls = []
      · rw [if_pos htok] at h; cases h
      · refine ⟨r1.takeWhile isSpaceRE, (r1.dropWhile isSpaceRE).takeWhile cls,
          (r1.dropWhile isSpaceRE).dropWhile cls, ?_, hws, ?_, htok, ?_⟩
        · rw [eq_append_of_dropLit _ _ _ hl]
          simp [List.append_assoc, List.takeWhile_append_dropWhile]
        · intro ch hch
          exact (List.mem_takeWhile_imp hch)
        · intro ch hch
          exact (List.mem_takeWhile_imp hch)

/-- Scanning skips the start positions at which the anchored match fails. -/
theorem Regexp.findFrom_append (re : Regexp) (pre s r : List Char) (caps : List (List Char))
    (hpre : ∀ pre2 s2, pre ++ s = pre2 ++ s2 → pre2.length < pre.length →
      ReItem.matchSeq re.items s2 = none)
    (hs : ReItem.matchSeq re.items s = some (r, caps)) (hne : s ≠ []) :
    re.findFrom (pre ++ s) = some (s.take (s.length - r.length) :: caps) := by
  induction pre with
  | nil =>
    obtain ⟨ch, s2, rfl⟩ := List.exists_cons_of_ne_nil hne
    simp only [List.nil_append, Regexp.findFrom, hs]
  | cons a pre ih =>
    have h0 := hpre [] (a :: pre ++ s) rfl (by simp)
    have hrest := ih (fun pre2 s2 heq hlt =>
      hpre (a :: pre2) s2 (by simp [heq]) (by simpa using hlt))
    simp only [List.cons_append] at h0
    show re.findFrom (a :: (pre ++ s)) = _
    rw [Regexp.findFrom, h0]
    exact hrest

/-- Scanning finds nothing when the anchored match fails at every start position. -/
theorem Regexp.findFrom_none (re : Regexp) (t : List Char)
    (h : ∀ pre s, t = pre ++ s → ReItem.matchSeq re.items s = none) :
    re.findFrom t = none := by
  induction t with
  | nil => simp only [Regexp.findFrom, h [] [] rfl]
  | cons a t ih =>
    simp only [Regexp.findFrom, h [] (a :: t) rfl]
    exact ih (fun pre s heq => h (a :: pre) s (by simp [heq]))

/-- The anchored match fails where the text does not begin with the pattern. -/
theorem matchSeq_none_of_not_beginsWith (lit : String) (cls : Char → Bool) (s : List Char)
    (h : ¬ BeginsWith lit cls s) :
    ReItem.matchSeq [.lit lit, .plus isSpaceRE, .group cls] s = none := by
  cases hm : ReItem.matchSeq [.lit lit, .plus isSpaceRE, .group cls] s with
  | none => rfl
  | some rc => exact absurd (beginsWith_of_matchSeq lit cls s rc.1 rc.2 hm) h

/-- Nothing is found in a text the pattern `lit\s+(cls+)` does not match. -/
theorem FindStringSubmatch_of_unmatched (lit : String) (cls : Char → Bool) (text : String)
    (h : Unmatched lit cls text) :
    Regexp.FindStringSubmatch { items := [.lit lit, .plus isSpaceRE, .group cls] } text = [] := by
  unfold Regexp.FindStringSubmatch
  rw [Regexp.findFrom_none _ text.toList
    (fun pre s heq => matchSeq_none_of_not_beginsWith lit cls s (h pre s heq))]

/-- The leftmost token is the capture of `lit\s+(cls+)`, for a class without blanks. -/
theorem FindStringSubmatch_of_leftmostToken (lit : String) (cls : Char → Bool)
    (hdisj : ∀ ch, cls ch = true → isSpaceRE ch = false) (text : String) (tok : List Char)
    (h : LeftmostToken lit cls text tok) :
    ∃ whole, Regexp.FindStringSubmatch { items := [.lit lit, .plus isSpaceRE, .group cls] } text
      = [whole, String.mk tok] := by
  obtain ⟨pre, ws, rest, htext, hws, hsp, htok, hcls, hrest, hleft⟩ := h
  obtain ⟨hm, -⟩ := matchSeq_of_beginsWith lit cls hdisj ws tok rest hws hsp htok hcls
  obtain ⟨htake, hdrop⟩ := takeWhile_run cls tok rest hcls hrest
  rw [htake, hdrop] at hm
  have hne : lit.toList ++ ws ++ tok ++ rest ≠ [] := by
    obtain ⟨w, ws2, rfl⟩ := List.exists_cons_of_ne_nil hws
    simp
  have hfind := Regexp.findFrom_append { items := [.lit lit, .plus isSpaceRE, .group cls] }
    pre (lit.toList ++ ws ++ tok ++ rest) rest [tok]
    (fun pre2 s2 heq hlt =>
      matchSeq_none_of_not_beginsWith lit cls s2 (hleft pre2 s2 (htext.trans heq) hlt))
    hm hne
  unfold Regexp.FindStringSubmatch
  rw [htext, hfind]
  exact ⟨_, rfl⟩

/-- A start position checked by evaluation does not begin with the pattern. -/
theorem not_beginsWith_of_check (lit : String) (cls : Char → Bool)
    (hdisj : ∀ ch, cls ch = true → isSpaceRE ch = false) (t : List Char) (n : Nat)
    (hcheck : ∀ k < n,
      ReItem.matchSeq [.lit lit, .plus isSpaceRE, .group cls] (t.drop k) = none) :
    ∀ pre2 s2, t = pre2 ++ s2 → pre2.length < n → ¬ BeginsWith lit cls s2 := by
  rintro pre2 s2 heq hlt ⟨ws, tok, rest, hs, hws, hsp, htok, hcls⟩
  have hnone := hcheck pre2.length hlt
  rw [heq, List.drop_left, hs,
    (matchSeq_of_beginsWith lit cls hdisj ws tok rest hws hsp htok hcls).1] at hnone
  cases hnone

theorem isSpaceRE_of_isDigitRE (ch : Char) (h : isDigitRE ch = true) : isSpaceRE ch = false := by
  simp only [isDigitRE, Bool.and_eq_true, decide_eq_true_eq] at h
  simp only [isSpaceRE, Bool.or_eq_false_iff, decide_eq_false_iff_not]
  refine ⟨⟨⟨⟨?_, ?_⟩, ?_⟩, ?_⟩, ?_⟩ <;> rintro rfl <;> revert h <;> decide

theorem isSpaceRE_of_isNonSpaceRE (ch : Char) (h : isNonSpaceRE ch = true) :
    isSpaceRE ch = false := by
  simpa [isNonSpaceRE] using h

/-! ## `strconv.Atoi` on digit strings -/

/-- On a non-empty string of digits `Atoi` yields its value, or the largest `int` and an error
when the value does not fit. -/
theorem Atoi_digits (intSize : Nat) (digits : List Char) (hne : digits ≠ [])
    (hdig : ∀ ch ∈ digits, isDigitRE ch = true) :
    Atoi intSize (String.mk digits) =
      if decimalValue digits ≥ 2 ^ (intSize - 1) then
        ((2 ^ (intSize - 1) : Int) - 1, some "value out of range")
      else ((decimalValue digits : Int), none) := by
  obtain ⟨d, ds, rfl⟩ := List.exists_cons_of_ne_nil hne
  have hd := hdig d (List.mem_cons_self _ _)
  have hminus : d ≠ '-' := by rintro rfl; revert hd; decide
  have hplus : d ≠ '+' := by rintro rfl; revert hd; decide
  have hall : (d :: ds).all isDigitRE = true := List.all_eq_true.mpr hdig
  simp only [Atoi, String.toList, hminus, hplus, if_false, hall]
  simp

/-- The result of `GetVersionInfoCLI` depends on the executor only through the text that
`show version verbose` returns. -/
theorem GetVersionInfoCLI_of_text (intSize : Nat) (cli : CliExecutor) (text : String)
    (hrun : cli.RunCli "show version verbose" = .ok text) :
    GetVersionInfoCLI intSize cli = GetVersionInfoCLI intSize (sampleCli text) := by
  simp [GetVersionInfoCLI, sampleCli, hrun]

/-! ## Claims about `GetVersionInfoCLI` -/

/-- C9, evaluated. In `hugePidText` the PID pattern captures the digit string
`99999999999999999999`, which fails integer parsing for a 64-bit `int`; no error is returned,
but `Pid` is not zero: the error of `strconv.Atoi` is discarded and the bound it returns with a
range error, the largest `int`, is stored. The sibling `GetUptimeCLI` checks its parse error
and leaves the value zero, as on the clock text with the number `1.2.3`. -/
theorem GetVersionInfoCLI_pid_counterexample :
    cliShowVersionVerbosePID.FindStringSubmatch hugePidText
        = ["PID: 99999999999999999999", "99999999999999999999"]
      ∧ (Atoi 64 "99999999999999999999").2 ≠ none
      ∧ GetVersionInfoCLI 64 (sampleCli hugePidText)
          = (some { Version := "v20.09-rc0~399", Pid := 9223372036854775807 }, none)
      ∧ ¬ (∃ info : api.VersionInfo,
            GetVersionInfoCLI 64 (sampleCli hugePidText) = (some info, none) ∧ info.Pid = 0)
      ∧ (ParseFloat "1.2.3").2 ≠ none
      ∧ GetUptimeCLI sampleOutOfRange (sampleCli badClockText) = (0, none) := by
  have heval : GetVersionInfoCLI 64 (sampleCli hugePidText)
      = (some { Version := "v20.09-rc0~399", Pid := 9223372036854775807 }, none) := by decide
  refine ⟨by decide, by decide, heval, ?_, by decide, by decide⟩
  rintro ⟨info, hinfo, hpid⟩
  rw [heval] at hinfo
  have hcfg : ({ Version := "v20.09-rc0~399", Pid := 9223372036854775807 } : api.VersionInfo)
      = info := by
    injection hinfo with h1 _
    injection h1
  subst hcfg
  revert hpid
  decide

/-- What `GetVersionInfoCLI` does on every text the version command returns: it returns no
error, leaves `Pid` zero when the PID pattern is unmatched and `Version` empty when the version
pattern is unmatched; and when the captured digit string fails integer parsing it stores the
largest value of the integer type, the bound `strconv.Atoi` returns with its range error,
rather than leaving `Pid` zero. -/
theorem GetVersionInfoCLI_soft_failures (intSize : Nat) (cli : CliExecutor) (text : String)
    (hrun : cli.RunCli "show version verbose" = .ok text) :
    ∃ info : api.VersionInfo, GetVersionInfoCLI intSize cli = (some info, none)
      ∧ (Unmatched "PID:" isDigitRE text → info.Pid = 0)
      ∧ (Unmatched "Version:" isNonSpaceRE text → info.Version = "")
      ∧ (∀ digits, LeftmostToken "PID:" isDigitRE text digits →
          (Atoi intSize (String.mk digits)).2 ≠ none →
          info.Pid = 2 ^ (intSize - 1) - 1) := by
  rw [GetVersionInfoCLI_of_text intSize cli text hrun]
  simp only [GetVersionInfoCLI, sampleCli]
  refine ⟨_, rfl, ?_, ?_, ?_⟩
  · intro hun
    have h := FindStringSubmatch_of_unmatched "PID:" isDigitRE text hun
    simp only [cliShowVersionVerbosePID, h]
    simp only [List.length_nil, gt_iff_lt, Nat.not_lt_zero, if_false]
    split <;> rfl
  · intro hun
    have h := FindStringSubmatch_of_unmatched "Version:" isNonSpaceRE text hun
    simp only [cliShowVersionVerbose, h]
    simp only [List.length_nil, gt_iff_lt, Nat.not_lt_zero, if_false]
    split <;> rfl
  · intro digits hleft hfail
    obtain ⟨whole, h⟩ :=
      FindStringSubmatch_of_leftmostToken "PID:" isDigitRE isSpaceRE_of_isDigitRE text digits hleft
    obtain ⟨-, -, -, -, -, -, hne, hdig, -, -⟩ := hleft
    rw [Atoi_digits intSize digits hne hdig] at hfail
    simp only [cliShowVersionVerbosePID, h]
    simp only [List.length_cons, List.length_nil, List.getD_cons_succ, List.getD_cons_zero]
    rw [Atoi_digits intSize digits hne hdig]
    split at hfail
    · rename_i hge
      simp [hge]
    · simp at hfail

/-- A text none of whose start positions passes the anchored check is unmatched. -/
theorem unmatched_of_check (lit : String) (cls : Char → Bool)
    (hdisj : ∀ ch, cls ch = true → isSpaceRE ch = false) (text : String)
    (hcheck : ∀ k < text.toList.length + 1,
      ReItem.matchSeq [.lit lit, .plus isSpaceRE, .group cls] (text.toList.drop k) = none) :
    Unmatched lit cls text := by
  intro pre s heq
  refine not_beginsWith_of_check lit cls hdisj text.toList (text.toList.length + 1) hcheck
    pre s heq ?_
  rw [heq, List.length_append]
  omega

/-- The soft failures of `GetVersionInfoCLI` at a text with neither a version nor a process
id. -/
theorem GetVersionInfoCLI_soft_failures_witness :
    (sampleCli noVersionText).RunCli "show version verbose" = .ok noVersionText
      ∧ Unmatched "PID:" isDigitRE noVersionText
      ∧ Unmatched "Version:" isNonSpaceRE noVersionText
      ∧ ∃ info : api.VersionInfo,
          GetVersionInfoCLI 64 (sampleCli noVersionText) = (some info, none)
          ∧ (Unmatched "PID:" isDigitRE noVersionText → info.Pid = 0)
          ∧ (Unmatched "Version:" isNonSpaceRE noVersionText → info.Version = "")
          ∧ (∀ digits, LeftmostToken "PID:" isDigitRE noVersionText digits →
              (Atoi 64 (String.mk digits)).2 ≠ none →
              info.Pid = 2 ^ (64 - 1) - 1) :=
  ⟨rfl,
    unmatched_of_check "PID:" isDigitRE isSpaceRE_of_isDigitRE noVersionText (by decide),
    unmatched_of_check "Version:" isNonSpaceRE isSpaceRE_of_isNonSpaceRE noVersionText
      (by decide),
    GetVersionInfoCLI_soft_failures 64 (sampleCli noVersionText) noVersionText rfl⟩

/-- C10. For every text whose leftmost occurrence of `Version:` followed by whitespace and
non-blank characters carries the token `V`, and whose leftmost occurrence of `PID:` followed by
whitespace and digits carries the digit string `digits` denoting an in-range integer,
`GetVersionInfoCLI` returns `Version = V`, `Pid` the integer `digits` denotes, and no error; on
the text `Version: v20.09-rc0~399\n...\nCurrent PID: 170` it returns `Version`
`v20.09-rc0~399` and `Pid` 170, for a 32-bit and for a 64-bit `int`. -/
theorem GetVersionInfoCLI_extracts (intSize : Nat) (cli : CliExecutor) (text : String)
    (V digits : List Char) (hrun : cli.RunCli "show version verbose" = .ok text)
    (hV : LeftmostToken "Version:" isNonSpaceRE text V)
    (hP : LeftmostToken "PID:" isDigitRE text digits)
    (hrange : decimalValue digits < 2 ^ (intSize - 1)) :
    GetVersionInfoCLI intSize cli
        = (some { Version := String.mk V, Pid := (decimalValue digits : Int) }, none)
      ∧ (∀ cli2 : CliExecutor, cli2.RunCli "show version verbose" = .ok versionText →
          GetVersionInfoCLI 32 cli2 = (some { Version := "v20.09-rc0~399", Pid := 170 }, none)
          ∧ GetVersionInfoCLI 64 cli2
              = (some { Version := "v20.09-rc0~399", Pid := 170 }, none)) := by
  constructor
  · rw [GetVersionInfoCLI_of_text intSize cli text hrun]
    obtain ⟨wholeV, hfV⟩ := FindStringSubmatch_of_leftmostToken "Version:" isNonSpaceRE
      isSpaceRE_of_isNonSpaceRE text V hV
    obtain ⟨wholeP, hfP⟩ := FindStringSubmatch_of_leftmostToken "PID:" isDigitRE
      isSpaceRE_of_isDigitRE text digits hP
    obtain ⟨-, -, -, -, -, -, hne, hdig, -, -⟩ := hP
    simp only [GetVersionInfoCLI, sampleCli, cliShowVersionVerbose, cliShowVersionVerbosePID,
      hfV, hfP, List.length_cons, List.length_nil, List.getD_cons_succ, List.getD_cons_zero,
      Atoi_digits intSize digits hne hdig]
    simp [Nat.not_le.mpr hrange]
  · intro cli2 hrun2
    rw [GetVersionInfoCLI_of_text 32 cli2 versionText hrun2,
      GetVersionInfoCLI_of_text 64 cli2 versionText hrun2]
    exact ⟨by decide, by decide⟩

/-- C10 at the scenario text, for a 64-bit `int`. -/
theorem GetVersionInfoCLI_extracts_witness :
    (sampleCli versionText).RunCli "show version verbose" = .ok versionText
      ∧ LeftmostToken "Version:" isNonSpaceRE versionText "v20.09-rc0~399".toList
      ∧ LeftmostToken "PID:" isDigitRE versionText "170".toList
      ∧ decimalValue "170".toList < 2 ^ (64 - 1)
      ∧ GetVersionInfoCLI 64 (sampleCli versionText)
          = (some { Version := "v20.09-rc0~399", Pid := 170 }, none) :=
  have hV : LeftmostToken "Version:" isNonSpaceRE versionText "v20.09-rc0~399".toList :=
    ⟨[], " ".toList, "\n...\nCurrent PID: 170".toList, by decide, by decide, by decide,
      by decide, by decide, by decide,
      not_beginsWith_of_check "Version:" isNonSpaceRE isSpaceRE_of_isNonSpaceRE
        versionText.toList 0 (by decide)⟩
  have hP : LeftmostToken "PID:" isDigitRE versionText "170".toList :=
    ⟨"Version: v20.09-rc0~399\n...\nCurrent ".toList, " ".toList, [], by decide, by decide,
      by decide, by decide, by decide, by decide,
      not_beginsWith_of_check "PID:" isDigitRE isSpaceRE_of_isDigitRE
        versionText.toList 36 (by decide)⟩
  ⟨rfl, hV, hP, by decide,
    (GetVersionInfoCLI_extracts 64 (sampleCli versionText) versionText "v20.09-rc0~399".toList
      "170".toList rfl hV hP (by decide)).1⟩

/-! ## The float64 model

`Float64.round` returns a float64 (a 53-bit significand times the spacing) and the nearest one.
-/

/-- The rounded quotient is within half a unit of `a / b`. -/
theorem roundHalfEven_near (a b : Nat) (hb : 0 < b) :
    2 * a ≤ 2 * (roundHalfEven a b * b) + b ∧ 2 * (roundHalfEven a b * b) ≤ 2 * a + b := by
  have hdm : b * (a / b) + a % b = a := Nat.div_add_mod a b
  have hlt : a % b < b := Nat.mod_lt a hb
  have hq : a / b * b = b * (a / b) := Nat.mul_comm _ _
  have hq1 : (a / b + 1) * b = b * (a / b) + b := by
    rw [Nat.add_mul, Nat.one_mul, Nat.mul_comm]
  unfold roundHalfEven
  split_ifs with h1 h2 h3
  · rw [hq]; omega
  · rw [hq1]; omega
  · rw [hq]; omega
  · rw [hq1]; omega

theorem log2Fuel_spec (fuel n : Nat) (hn : 1 ≤ n) (hfuel : n ≤ fuel) :
    2 ^ log2Fuel fuel n ≤ n ∧ n < 2 ^ (log2Fuel fuel n + 1) := by
  induction fuel generalizing n with
  | zero => omega
  | succ fuel ih =>
    unfold log2Fuel
    by_cases h2 : n ≥ 2
    · rw [if_pos h2]
      have hhalf := ih (n / 2) (by omega) (by omega)
      rw [Nat.pow_succ, Nat.pow_succ]
      omega
    · rw [if_neg h2]
      have h1 : n = 1 := by omega
      subst h1
      simp

/-- The binary logarithm brackets its argument. -/
theorem floorLog2_spec (n : Nat) (hn : 1 ≤ n) :
    2 ^ floorLog2 n ≤ n ∧ n < 2 ^ (floorLog2 n + 1) :=
  log2Fuel_spec n n hn (Nat.le_refl n)

/-- A finite result of `Float64.round` is a multiple of the spacing `2^shift` chosen for
`a / b`, with a multiplier of at most `2^53`, and is within half that spacing of `a / b`. -/
theorem Float64.round_near (a b units : Nat) (hb : 0 < b)
    (h : Float64.round a b = .finite units) :
    ∃ m, units = m * 2 ^ (floorLog2 (a / b) - 52) ∧ m ≤ 2 ^ 53
      ∧ 2 * a ≤ 2 * (units * b) + b * 2 ^ (floorLog2 (a / b) - 52)
      ∧ 2 * (units * b) ≤ 2 * a + b * 2 ^ (floorLog2 (a / b) - 52) := by
  have hpos : 0 < b * 2 ^ (floorLog2 (a / b) - 52) := Nat.mul_pos hb (Nat.two_pow_pos _)
  obtain ⟨hlo, hhi⟩ := roundHalfEven_near a (b * 2 ^ (floorLog2 (a / b) - 52)) hpos
  have hunits : units
      = roundHalfEven a (b * 2 ^ (floorLog2 (a / b) - 52)) * 2 ^ (floorLog2 (a / b) - 52) := by
    unfold Float64.round at h
    simp only at h
    split at h
    · injection h with h; exact h.symm
    · cases h
  refine ⟨roundHalfEven a (b * 2 ^ (floorLog2 (a / b) - 52)), hunits, ?_, ?_, ?_⟩
  · have hle : roundHalfEven a (b * 2 ^ (floorLog2 (a / b) - 52))
        ≤ a / (b * 2 ^ (floorLog2 (a / b) - 52)) + 1 := by
      unfold roundHalfEven
      split_ifs <;> omega
    have hdiv : a / (b * 2 ^ (floorLog2 (a / b) - 52)) < 2 ^ 53 := by
      rw [← Nat.div_div_eq_div_mul, Nat.div_lt_iff_lt_mul (Nat.two_pow_pos _)]
      by_cases hz : a / b = 0
      · rw [hz]; exact Nat.mul_pos (Nat.two_pow_pos _) (Nat.two_pow_pos _)
      · have hspec := (floorLog2_spec (a / b) (Nat.pos_of_ne_zero hz)).2
        refine Nat.lt_of_lt_of_le hspec ?_
        rw [← Nat.pow_add]
        exact Nat.pow_le_pow_right (by decide) (by omega)
    omega
  · rw [hunits]
    have hre : roundHalfEven a (b * 2 ^ (floorLog2 (a / b) - 52))
          * 2 ^ (floorLog2 (a / b) - 52) * b
        = roundHalfEven a (b * 2 ^ (floorLog2 (a / b) - 52))
          * (b * 2 ^ (floorLog2 (a / b) - 52)) := by ring
    rw [hre]
    exact hlo
  · rw [hunits]
    have hre : roundHalfEven a (b * 2 ^ (floorLog2 (a / b) - 52))
          * 2 ^ (floorLog2 (a / b) - 52) * b
        = roundHalfEven a (b * 2 ^ (floorLog2 (a / b) - 52))
          * (b * 2 ^ (floorLog2 (a / b) - 52)) := by ring
    rw [hre]
    exact hhi

/-! ## The clock pattern -/

theorem matchSeq_lit (l : String) (items : List ReItem) (r : List Char) :
    ReItem.matchSeq (.lit l :: items) (l.toList ++ r) = ReItem.matchSeq items r := by
  rw [ReItem.matchSeq, dropLit_append]

theorem matchSeq_plus (cls : Char → Bool) (items : List ReItem) (run r : List Char)
    (hne : run ≠ []) (hrun : ∀ ch ∈ run, cls ch = true)
    (hr : ∀ ch ∈ r.head?, cls ch = false) :
    ReItem.matchSeq (.plus cls :: items) (run ++ r) = ReItem.matchSeq items r := by
  obtain ⟨htake, hdrop⟩ := takeWhile_run cls run r hrun hr
  rw [ReItem.matchSeq, htake, hdrop, if_neg hne]

theorem matchSeq_group (cls : Char → Bool) (items : List ReItem) (run r : List Char)
    (hne : run ≠ []) (hrun : ∀ ch ∈ run, cls ch = true)
    (hr : ∀ ch ∈ r.head?, cls ch = false) :
    ReItem.matchSeq (.group cls :: items) (run ++ r)
      = (ReItem.matchSeq items r).map (fun x => (x.1, run :: x.2)) := by
  obtain ⟨htake, hdrop⟩ := takeWhile_run cls run r hrun hr
  rw [ReItem.matchSeq, htake, hdrop, if_neg hne]
  cases ReItem.matchSeq items r with
  | none => rfl
  | some x => rfl

theorem matchSeq_lit_inv (l : String) (items : List ReItem) (s : List Char)
    (x : List Char × List (List Char)) (h : ReItem.matchSeq (.lit l :: items) s = some x) :
    ∃ r, s = l.toList ++ r ∧ ReItem.matchSeq items r = some x := by
  rw [ReItem.matchSeq] at h
  cases hl : dropLit l.toList s with
  | none => rw [hl] at h; cases h
  | some r =>
    rw [hl] at h
    exact ⟨r, eq_append_of_dropLit _ _ _ hl, h⟩

theorem matchSeq_plus_inv (cls : Char → Bool) (items : List ReItem) (s : List Char)
    (x : List Char × List (List Char)) (h : ReItem.matchSeq (.plus cls :: items) s = some x) :
    ∃ run r, s = run ++ r ∧ run ≠ [] ∧ (∀ ch ∈ run, cls ch = true)
      ∧ ReItem.matchSeq items r = some x := by
  rw [ReItem.matchSeq] at h
  by_cases hrun : s.takeWhile cls = []
  · rw [if_pos hrun] at h; cases h
  · rw [if_neg hrun] at h
    exact ⟨s.takeWhile cls, s.dropWhile cls, (List.takeWhile_append_dropWhile cls s).symm, hrun,
      fun ch hch => List.mem_takeWhile_imp hch, h⟩

theorem matchSeq_group_inv (cls : Char → Bool) (items : List ReItem) (s : List Char)
    (x : List Char × List (List Char)) (h : ReItem.matchSeq (.group cls :: items) s = some x) :
    ∃ run r y, s = run ++ r ∧ run ≠ [] ∧ (∀ ch ∈ run, cls ch = true)
      ∧ ReItem.matchSeq items r = some y ∧ x = (y.1, run :: y.2) := by
  rw [ReItem.matchSeq] at h
  by_cases hrun : s.takeWhile cls = []
  · rw [if_pos hrun] at h; cases h
  · rw [if_neg hrun] at h
    cases hm : ReItem.matchSeq items (s.dropWhile cls) with
    | none => rw [hm] at h; cases h
    | some y =>
      rw [hm] at h
      obtain ⟨y1, y2⟩ := y
      simp only [Option.some.injEq] at h
      exact ⟨s.takeWhile cls, s.dropWhile cls, (y1, y2),
        (List.takeWhile_append_dropWhile cls s).symm, hrun,
        fun ch hch => List.mem_takeWhile_imp hch, hm, h.symm⟩

theorem isSpaceRE_of_isDigitOrDotRE (ch : Char) (h : isDigitOrDotRE ch = true) :
    isSpaceRE ch = false := by
  simp only [isDigitOrDotRE, Bool.or_eq_true, decide_eq_true_eq] at h
  rcases h with h | h
  · exact isSpaceRE_of_isDigitRE ch h
  · subst h; decide

/-- The anchored match of the clock pattern: completeness. -/
theorem matchSeq_of_clockBegins (s num : List Char) (h : ClockBegins s num) :
    ∃ r tok2, ReItem.matchSeq cliShowClock.items s = some (r, [num, tok2]) := by
  obtain ⟨ws1, ws2, ws3, tok, rest, rfl, ⟨hn1, hs1⟩, ⟨hn2, hs2⟩, ⟨hn3, hs3⟩, hnum, hdd, htok,
    hns⟩ := h
  obtain ⟨d, num2, rfl⟩ := List.exists_cons_of_ne_nil hnum
  obtain ⟨t, tok2, rfl⟩ := List.exists_cons_of_ne_nil htok
  have hd := hdd d (List.mem_cons_self _ _)
  have ht := hns t (List.mem_cons_self _ _)
  have hlast : (t :: tok2 ++ rest).takeWhile isNonSpaceRE ≠ [] := by
    simp [List.takeWhile_cons, ht]
  simp only [cliShowClock]
  rw [matchSeq_lit, matchSeq_plus isSpaceRE _ ws1 _ hn1 hs1
      (by intro ch hch; have h2 : some 'n' = some ch := hch; cases h2; decide),
    matchSeq_lit,
    matchSeq_plus isSpaceRE _ ws2 _ hn2 hs2
      (by simp [isSpaceRE_of_isDigitOrDotRE d hd]),
    matchSeq_group isDigitOrDotRE _ (d :: num2) _ hnum hdd
      (by intro ch hch; have h2 : some ',' = some ch := hch; cases h2; decide),
    matchSeq_lit,
    matchSeq_plus isSpaceRE _ ws3 _ hn3 hs3
      (by simp [isSpaceRE_of_isNonSpaceRE t ht])]
  rw [ReItem.matchSeq, if_neg hlast]
  exact ⟨_, _, rfl⟩

/-- The anchored match of the clock pattern: soundness. -/
theorem clockBegins_of_matchSeq (s : List Char) (x : List Char × List (List Char))
    (h : ReItem.matchSeq cliShowClock.items s = some x) : ∃ num, ClockBegins s num := by
  simp only [cliShowClock] at h
  obtain ⟨r1, rfl, h⟩ := matchSeq_lit_inv _ _ _ _ h
  obtain ⟨ws1, r2, rfl, hn1, hs1, h⟩ := matchSeq_plus_inv _ _ _ _ h
  obtain ⟨r3, rfl, h⟩ := matchSeq_lit_inv _ _ _ _ h
  obtain ⟨ws2, r4, rfl, hn2, hs2, h⟩ := matchSeq_plus_inv _ _ _ _ h
  obtain ⟨num, r5, y, rfl, hnum, hdd, h, -⟩ := matchSeq_group_inv _ _ _ _ h
  obtain ⟨r6, rfl, h⟩ := matchSeq_lit_inv _ _ _ _ h
  obtain ⟨ws3, r7, rfl, hn3, hs3, h⟩ := matchSeq_plus_inv _ _ _ _ h
  obtain ⟨tok, r8, z, rfl, htok, hns, -, -⟩ := matchSeq_group_inv _ _ _ _ h
  exact ⟨num, ws1, ws2, ws3, tok, r8, rfl, ⟨hn1, hs1⟩, ⟨hn2, hs2⟩, ⟨hn3, hs3⟩, hnum, hdd, htok,
    hns⟩

theorem matchSeq_clock_none (s : List Char) (h : ∀ num, ¬ ClockBegins s num) :
    ReItem.matchSeq cliShowClock.items s = none := by
  cases hm : ReItem.matchSeq cliShowClock.items s with
  | none => rfl
  | some x =>
    obtain ⟨num, hnum⟩ := clockBegins_of_matchSeq s x hm
    exact absurd hnum (h num)

/-- Nothing is found in a text the clock pattern does not match. -/
theorem FindStringSubmatch_clock_unmatched (text : String) (h : ClockUnmatched text) :
    cliShowClock.FindStringSubmatch text = [] := by
  unfold Regexp.FindStringSubmatch
  rw [Regexp.findFrom_none _ text.toList
    (fun pre s heq => matchSeq_clock_none s (fun num => h pre s num heq))]

/-- The number text of the leftmost match is the first capture of the clock pattern. -/
theorem FindStringSubmatch_clock_leftmost (text : String) (num : List Char)
    (h : LeftmostClock text num) :
    ∃ whole tok2, cliShowClock.FindStringSubmatch text = [whole, String.mk num, tok2] := by
  obtain ⟨pre, s, htext, hbegin, hleft⟩ := h
  obtain ⟨r, tok2, hm⟩ := matchSeq_of_clockBegins s num hbegin
  have hne : s ≠ [] := by
    obtain ⟨ws1, ws2, ws3, tok, rest, rfl, -⟩ := hbegin
    exact List.cons_ne_nil _ _
  have hfind := Regexp.findFrom_append cliShowClock pre s r [num, tok2]
    (fun pre2 s2 heq hlt =>
      matchSeq_clock_none s2 (fun num2 => hleft pre2 s2 num2 (htext.trans heq) hlt))
    hm hne
  unfold Regexp.FindStringSubmatch
  rw [htext, hfind]
  exact ⟨_, _, rfl⟩

/-- Start positions checked by evaluation do not begin with the clock pattern. -/
theorem not_clockBegins_of_check (t : List Char) (n : Nat)
    (hcheck : ∀ k < n, ReItem.matchSeq cliShowClock.items (t.drop k) = none) :
    ∀ pre2 s2 num2, t = pre2 ++ s2 → pre2.length < n → ¬ ClockBegins s2 num2 := by
  intro pre2 s2 num2 heq hlt hbegin
  have hnone := hcheck pre2.length hlt
  obtain ⟨r, tok2, hm⟩ := matchSeq_of_clockBegins s2 num2 hbegin
  rw [heq, List.drop_left, hm] at hnone
  cases hnone

/-- A text none of whose start positions passes the anchored check is unmatched. -/
theorem clockUnmatched_of_check (text : String)
    (hcheck : ∀ k < text.toList.length + 1,
      ReItem.matchSeq cliShowClock.items (text.toList.drop k) = none) :
    ClockUnmatched text := by
  intro pre s num heq
  refine not_clockBegins_of_check text.toList (text.toList.length + 1) hcheck pre s num heq ?_
  rw [heq, List.length_append]
  omega

/-- The result of `GetUptimeCLI` depends on the executor only through the text that
`show clock` returns. -/
theorem GetUptimeCLI_of_text (outOfRange : Float64 → Int) (cli : CliExecutor) (text : String)
    (hrun : cli.RunCli "show clock" = .ok text) :
    GetUptimeCLI outOfRange cli = GetUptimeCLI outOfRange (sampleCli text) := by
  simp [GetUptimeCLI, sampleCli, hrun]

/-! ## Claims about `GetUptimeCLI` and `DumpLogsCLI` -/

/-- C11. For every text returned by the clock command, `GetUptimeCLI` returns a zero duration
and no error when the clock pattern matches nowhere in the text, and also when the pattern
matches but the captured run of digits and dots is not a parseable number, that is when
`strconv.ParseFloat` fails on it, as it does on `1.2.3` and on `...`. -/
theorem GetUptimeCLI_zero (outOfRange : Float64 → Int) (cli : CliExecutor) (text : String)
    (hrun : cli.RunCli "show clock" = .ok text) :
    (ClockUnmatched text → GetUptimeCLI outOfRange cli = (0, none))
      ∧ (∀ num, LeftmostClock text num → (ParseFloat (String.mk num)).2 ≠ none →
          GetUptimeCLI outOfRange cli = (0, none))
      ∧ (ParseFloat "1.2.3").2 ≠ none ∧ (ParseFloat "...").2 ≠ none := by
  rw [GetUptimeCLI_of_text outOfRange cli text hrun]
  refine ⟨?_, ?_, by decide, by decide⟩
  · intro hun
    simp [GetUptimeCLI, sampleCli, FindStringSubmatch_clock_unmatched text hun]
  · intro num hleft hfail
    obtain ⟨whole, tok2, hfind⟩ := FindStringSubmatch_clock_leftmost text num hleft
    simp only [GetUptimeCLI, sampleCli, hfind, List.length_cons, List.length_nil,
      List.getD_cons_succ, List.getD_cons_zero]
    cases hp : ParseFloat (String.mk num) with
    | mk f err =>
      cases err with
      | none => rw [hp] at hfail; exact absurd rfl hfail
      | some e => simp

/-- C11 at a clock text whose number has two dots. -/
theorem GetUptimeCLI_zero_witness :
    (sampleCli badClockText).RunCli "show clock" = .ok badClockText
      ∧ LeftmostClock badClockText "1.2.3".toList
      ∧ (ClockUnmatched badClockText →
          GetUptimeCLI sampleOutOfRange (sampleCli badClockText) = (0, none))
      ∧ (∀ num, LeftmostClock badClockText num → (ParseFloat (String.mk num)).2 ≠ none →
          GetUptimeCLI sampleOutOfRange (sampleCli badClockText) = (0, none))
      ∧ (ParseFloat "1.2.3").2 ≠ none ∧ (ParseFloat "...").2 ≠ none :=
  ⟨rfl,
    ⟨[], badClockText.toList, rfl,
      ⟨" ".toList, " ".toList, " ".toList, "Tue,".toList, " 1 Dec 2020 11:52:45 GMT".toList,
        by decide, ⟨by decide, by decide⟩, ⟨by decide, by decide⟩, ⟨by decide, by decide⟩,
        by decide, by decide, by decide, by decide⟩,
      not_clockBegins_of_check badClockText.toList 0 (by decide)⟩,
    GetUptimeCLI_zero sampleOutOfRange (sampleCli badClockText) badClockText rfl⟩

set_option exponentiation.threshold 4000

set_option maxRecDepth 100000

/-- C12, refuted as stated: on a clock text with the number `1.001`, which parses without error
and for which the seconds value times the nanoseconds per second is exactly 1001000000,
`GetUptimeCLI` returns 1000999999 nanoseconds; and on a clock text with the number
`99999999999` it returns the implementation's out-of-range value, not 10^20 nanoseconds. -/
theorem GetUptimeCLI_product_counterexample :
    cliShowClock.FindStringSubmatch inexactClockText = ["Time now 1.001, Tue,", "1.001", "Tue,"]
      ∧ (ParseFloat "1.001").2 = none
      ∧ decimalValue "1001".toList * 1000000000 = 1001000000 * 10 ^ 3
      ∧ GetUptimeCLI sampleOutOfRange (sampleCli inexactClockText) = (1000999999, none)
      ∧ GetUptimeCLI sampleOutOfRange (sampleCli inexactClockText) ≠ (1001000000, none)
      ∧ (ParseFloat "99999999999").2 = none
      ∧ GetUptimeCLI sampleOutOfRange (sampleCli hugeClockText)
          = (-9223372036854775808, none)
      ∧ GetUptimeCLI sampleOutOfRange (sampleCli hugeClockText)
          ≠ (99999999999 * 1000000000, none) := by
  decide

/-- C12, amended. For every text in which the clock pattern matches and the captured number
text parses to the float64 value `x`, `GetUptimeCLI` returns no error and the `int64` conversion
of the float64 product of `x` and `1e9`: when that product is below `2^63` it is the product
with its fraction discarded, a whole number of nanoseconds; on the text
`Time now 3180.278756, Tue, 1 Dec 2020 11:52:45 GMT` the result is 3180278756000
nanoseconds. -/
theorem GetUptimeCLI_product (outOfRange : Float64 → Int) (cli : CliExecutor) (text : String)
    (num : List Char) (x : Float64) (hrun : cli.RunCli "show clock" = .ok text)
    (hleft : LeftmostClock text num) (hparse : ParseFloat (String.mk num) = (x, none)) :
    GetUptimeCLI outOfRange cli = (Float64.toInt64 outOfRange (x.mul Float64.second), none)
      ∧ (∀ units, x.mul Float64.second = .finite units → units / 2 ^ 1074 < 2 ^ 63 →
          GetUptimeCLI outOfRange cli = (((units / 2 ^ 1074 : Nat) : Int), none))
      ∧ (∀ cli2 : CliExecutor, cli2.RunCli "show clock" = .ok clockText →
          GetUptimeCLI outOfRange cli2 = (3180278756000, none)) := by
  have hmain : GetUptimeCLI outOfRange cli
      = (Float64.toInt64 outOfRange (x.mul Float64.second), none) := by
    rw [GetUptimeCLI_of_text outOfRange cli text hrun]
    obtain ⟨whole, tok2, hfind⟩ := FindStringSubmatch_clock_leftmost text num hleft
    simp only [GetUptimeCLI, sampleCli, hfind, List.length_cons, List.length_nil,
      List.getD_cons_succ, List.getD_cons_zero, hparse]
    simp
  refine ⟨hmain, ?_, ?_⟩
  · intro units hunits hlt
    rw [hmain, hunits]
    show (if units / 2 ^ 1074 < 2 ^ 63 then ((units / 2 ^ 1074 : Nat) : Int)
      else outOfRange (.finite units), (none : Option GoError)) = _
    rw [if_pos hlt]
  · intro cli2 hrun2
    rw [GetUptimeCLI_of_text outOfRange cli2 clockText hrun2]
    have hfind : cliShowClock.FindStringSubmatch clockText
        = ["Time now 3180.278756, Tue,", "3180.278756", "Tue,"] := by decide
    have hp : ParseFloat "3180.278756"
        = ((ParseFloat "3180.278756").1, none) := by decide
    have hprod : Float64.toInt64 outOfRange ((ParseFloat "3180.278756").1.mul Float64.second)
        = 3180278756000 := by
      have hv : (ParseFloat "3180.278756").1.mul Float64.second
          = .finite (3180278756000 * 2 ^ 1074) := by decide
      rw [hv]
      have hlt : 3180278756000 * 2 ^ 1074 / 2 ^ 1074 < 2 ^ 63 := by decide
      simp only [Float64.toInt64, hlt, if_true]
      decide
    simp only [GetUptimeCLI, sampleCli, hfind, List.length_cons, List.length_nil,
      List.getD_cons_succ, List.getD_cons_zero]
    rw [hp]
    simp only [hprod]
    simp

/-- C12 (amended) at the scenario text. -/
theorem GetUptimeCLI_product_witness :
    (sampleCli clockText).RunCli "show clock" = .ok clockText
      ∧ LeftmostClock clockText "3180.278756".toList
      ∧ ParseFloat "3180.278756" = (.finite (6993506943581985 * 2 ^ 1033), none)
      ∧ GetUptimeCLI sampleOutOfRange (sampleCli clockText) = (3180278756000, none) :=
  have hleft : LeftmostClock clockText "3180.278756".toList :=
    ⟨[], clockText.toList, rfl,
      ⟨" ".toList, " ".toList, " ".toList, "Tue,".toList, " 1 Dec 2020 11:52:45 GMT".toList,
        by decide, ⟨by decide, by decide⟩, ⟨by decide, by decide⟩, ⟨by decide, by decide⟩,
        by decide, by decide, by decide, by decide⟩,
      not_clockBegins_of_check clockText.toList 0 (by decide)⟩
  ⟨rfl, hleft, by decide,
    ((GetUptimeCLI_product sampleOutOfRange (sampleCli clockText) clockText
      "3180.278756".toList (.finite (6993506943581985 * 2 ^ 1033)) rfl hleft
      (by decide)).1).trans (by decide)⟩

/-! ## `strings.Split` -/

/-- A text that holds the separator is what precedes its first occurrence, the separator, and
what follows it. -/
theorem split_at_first (sep : Char) (s : List Char) (h : sep ∈ s) :
    s = s.takeWhile (fun ch => ch != sep) ++ sep :: (s.dropWhile (fun ch => ch != sep)).drop 1
      ∧ s.count sep = ((s.dropWhile (fun ch => ch != sep)).drop 1).count sep + 1 := by
  induction s with
  | nil => cases h
  | cons a s ih =>
    by_cases ha : a = sep
    · subst ha
      simp [List.takeWhile_cons, List.dropWhile_cons]
    · have hs : sep ∈ s := by
        rcases List.mem_cons.mp h with h1 | h1
        · exact absurd h1.symm ha
        · exact h1
      obtain ⟨h1, h2⟩ := ih hs
      have hne : (a != sep) = true := by simpa using ha
      constructor
      · simp only [List.takeWhile_cons, List.dropWhile_cons, hne, if_true, List.cons_append]
        rw [← h1]
      · simp only [List.dropWhile_cons, hne, if_true]
        rw [List.count_cons_of_ne (Ne.symm ha), h2]

theorem genSplit_no_sep (sep : Char) (k : Nat) (s : List Char) (hk : s.count sep ≤ k) :
    ∀ l ∈ genSplit sep k s, sep ∉ l := by
  induction k generalizing s with
  | zero =>
    intro l hl
    simp only [genSplit, List.mem_singleton] at hl
    subst hl
    exact List.count_eq_zero.mp (Nat.le_zero.mp hk)
  | succ k ih =>
    intro l hl
    by_cases hs : sep ∈ s
    · obtain ⟨-, hcount⟩ := split_at_first sep s hs
      have hc : s.contains sep = true := by simpa using hs
      simp only [genSplit, hc, if_true, List.mem_cons] at hl
      rcases hl with rfl | hl
      · intro hmem
        have := List.mem_takeWhile_imp hmem
        simp at this
      · exact ih _ (by omega) l hl
    · have hc : s.contains sep = false := by simpa using hs
      simp only [genSplit, hc, Bool.false_eq_true, if_false, List.mem_singleton] at hl
      subst hl
      exact hs

theorem genSplit_length (sep : Char) (k : Nat) (s : List Char) (hk : s.count sep ≤ k) :
    (genSplit sep k s).length = s.count sep + 1 := by
  induction k generalizing s with
  | zero => simp [genSplit, Nat.le_zero.mp hk]
  | succ k ih =>
    by_cases hs : sep ∈ s
    · obtain ⟨-, hcount⟩ := split_at_first sep s hs
      have hc : s.contains sep = true := by simpa using hs
      simp only [genSplit, hc, if_true, List.length_cons]
      rw [ih _ (by omega), hcount]
    · have hc : s.contains sep = false := by simpa using hs
      simp only [genSplit, hc, Bool.false_eq_true, if_false, List.length_singleton,
        List.count_eq_zero.mpr hs]

theorem genSplit_ne_nil (sep : Char) (k : Nat) (s : List Char) : genSplit sep k s ≠ [] := by
  cases k with
  | zero => simp [genSplit]
  | succ k =>
    simp only [genSplit]
    split <;> simp

theorem joinWith_cons (sep : Char) (a : List Char) (rest : List (List Char))
    (h : rest ≠ []) : joinWith sep (a :: rest) = a ++ sep :: joinWith sep rest := by
  obtain ⟨b, rest2, rfl⟩ := List.exists_cons_of_ne_nil h
  rfl

theorem joinWith_genSplit (sep : Char) (k : Nat) (s : List Char) :
    joinWith sep (genSplit sep k s) = s := by
  induction k generalizing s with
  | zero => rfl
  | succ k ih =>
    by_cases hs : sep ∈ s
    · obtain ⟨hsplit, -⟩ := split_at_first sep s hs
      have hc : s.contains sep = true := by simpa using hs
      simp only [genSplit, hc, if_true]
      rw [joinWith_cons sep _ _ (genSplit_ne_nil sep k _), ih]
      exact hsplit.symm
    · have hc : s.contains sep = false := by simpa using hs
      simp only [genSplit, hc, Bool.false_eq_true, if_false, joinWith]

/-- C13. For every text returned by the log command, `DumpLogsCLI` returns no error and the
newline-delimited lines of the text verbatim: no returned line holds a newline character, the
number of lines is one more than the number of newline characters of the text (the empty text
gives one empty line), and joining the lines with a newline gives back the text. -/
theorem DumpLogsCLI_lines (cli : CliExecutor) (text : String)
    (hrun : cli.RunCli "show log" = .ok text) :
    ∃ logs : List String, DumpLogsCLI cli = (logs, none)
      ∧ (∀ l ∈ logs, '\n' ∉ l.toList)
      ∧ logs.length = text.toList.count '\n' + 1
      ∧ (text = "" → logs = [""])
      ∧ stringsJoin logs '\n' = text := by
  refine ⟨stringsSplit text '\n', by simp [DumpLogsCLI, hrun], ?_, ?_, ?_, ?_⟩
  · intro l hl
    simp only [stringsSplit, List.mem_map] at hl
    obtain ⟨cs, hcs, rfl⟩ := hl
    exact genSplit_no_sep '\n' _ text.toList (Nat.le_refl _) cs hcs
  · simp only [stringsSplit, List.length_map]
    exact genSplit_length '\n' _ text.toList (Nat.le_refl _)
  · rintro rfl
    rfl
  · simp only [stringsJoin, stringsSplit, List.map_map]
    have hid : (String.toList ∘ String.mk) = id := by
      funext cs
      rfl
    rw [hid, List.map_id, joinWith_genSplit]
    rfl

/-- C13 at a log text of four lines and a final newline. -/
theorem DumpLogsCLI_lines_witness :
    (sampleCli logText).RunCli "show log" = .ok logText
      ∧ DumpLogsCLI (sampleCli logText)
          = (["first line", "second line", "", "last line", ""], none)
      ∧ ∃ logs : List String, DumpLogsCLI (sampleCli logText) = (logs, none)
          ∧ (∀ l ∈ logs, '\n' ∉ l.toList)
          ∧ logs.length = logText.toList.count '\n' + 1
          ∧ (logText = "" → logs = [""])
          ∧ stringsJoin logs '\n' = logText :=
  ⟨rfl, by decide, DumpLogsCLI_lines (sampleCli logText) logText rfl⟩

/-! ## Provenance of the typed records -/

/-- Whatever one loop iteration appends was decoded from the item of that iteration. -/
theorem retrieveConfig.step_zero_decodedFrom (E : Env) (item : kvdata) :
    (∀ x ∈ (retrieveConfig.step E Config.zero item).VPP.Interfaces,
        E.DecodedFrom E.vppModelInterface E.unmarshalVppInterface [item] x.kvdata x.Value)
    ∧ (∀ x ∈ (retrieveConfig.step E Config.zero item).Linux.Interfaces,
        E.DecodedFrom E.linuxModelInterface E.unmarshalLinuxInterface [item] x.kvdata x.Value)
    ∧ (∀ x ∈ (retrieveConfig.step E Config.zero item).VPP.L2XConnects,
        E.DecodedFrom E.ModelXConnectPair E.unmarshalXConnectPair [item] x.kvdata x.Value)
    ∧ (∀ x ∈ (retrieveConfig.step E Config.zero item).VPP.IPSecTunProtects,
        E.DecodedFrom E.ModelTunnelProtection E.unmarshalTunnelProtection [item] x.kvdata
          x.Value)
    ∧ (∀ x ∈ (retrieveConfig.step E Config.zero item).VPP.IPSecSAs,
        E.DecodedFrom E.ModelSecurityAssociation E.unmarshalSecurityAssociation [item] x.kvdata
          x.Value)
    ∧ (∀ x ∈ (retrieveConfig.step E Config.zero item).VPP.IPSecSPDs,
        E.DecodedFrom E.ModelSecurityPolicyDatabase E.unmarshalSecurityPolicyDatabase [item]
          x.kvdata x.Value) := by
  unfold retrieveConfig.step
  cases hm : E.GetModelForKey item.Key with
  | error e => simp [Config.zero]
  | ok model =>
    simp only
    by_cases c1 : model.Name = E.vppModelInterface.Name
    · rw [if_pos c1]
      cases hv : E.unmarshalVppInterface item.Value <;>
        simp [Config.zero, Env.DecodedFrom, CarriesRecord, hm, hv, c1]
    rw [if_neg c1]
    by_cases c2 : model.Name = E.linuxModelInterface.Name
    · rw [if_pos c2]
      cases hv : E.unmarshalLinuxInterface item.Value <;>
        simp [Config.zero, Env.DecodedFrom, CarriesRecord, hm, hv, c2]
    rw [if_neg c2]
    by_cases c3 : model.Name = E.ModelXConnectPair.Name
    · rw [if_pos c3]
      cases hv : E.unmarshalXConnectPair item.Value <;>
        simp [Config.zero, Env.DecodedFrom, CarriesRecord, hm, hv, c3]
    rw [if_neg c3]
    by_cases c4 : model.Name = E.ModelTunnelProtection.Name
    · rw [if_pos c4]
      cases hv : E.unmarshalTunnelProtection item.Value <;>
        simp [Config.zero, Env.DecodedFrom, CarriesRecord, hm, hv, c4]
    rw [if_neg c4]
    by_cases c5 : model.Name = E.ModelSecurityAssociation.Name
    · rw [if_pos c5]
      cases hv : E.unmarshalSecurityAssociation item.Value <;>
        simp [Config.zero, Env.DecodedFrom, CarriesRecord, hm, hv, c5]
    rw [if_neg c5]
    by_cases c6 : model.Name = E.ModelSecurityPolicyDatabase.Name
    · rw [if_pos c6]
      cases hv : E.unmarshalSecurityPolicyDatabase item.Value <;>
        simp [Config.zero, Env.DecodedFrom, CarriesRecord, hm, hv, c6]
    rw [if_neg c6]
    simp [Config.zero]

theorem Env.DecodedFrom.mono {α : Type} (E : Env) (m : KnownModel)
    (unmarshal : RawMessage → Except GoError (Option α)) (l1 l2 : List kvdata)
    (hsub : ∀ item ∈ l1, item ∈ l2) (kv : kvdata) (val : Option α)
    (h : E.DecodedFrom m unmarshal l1 kv val) : E.DecodedFrom m unmarshal l2 kv val := by
  obtain ⟨item, hitem, hrest⟩ := h
  exact ⟨item, hsub item hitem, hrest⟩

/-- Every typed record of the classified dump was decoded from a record of the dump. -/
theorem retrieveConfig.classify_decodedFrom (E : Env) (list : List kvdata) :
    (∀ x ∈ (retrieveConfig.classify E list).VPP.Interfaces,
        E.DecodedFrom E.vppModelInterface E.unmarshalVppInterface list x.kvdata x.Value)
    ∧ (∀ x ∈ (retrieveConfig.classify E list).Linux.Interfaces,
        E.DecodedFrom E.linuxModelInterface E.unmarshalLinuxInterface list x.kvdata x.Value)
    ∧ (∀ x ∈ (retrieveConfig.classify E list).VPP.L2XConnects,
        E.DecodedFrom E.ModelXConnectPair E.unmarshalXConnectPair list x.kvdata x.Value)
    ∧ (∀ x ∈ (retrieveConfig.classify E list).VPP.IPSecTunProtects,
        E.DecodedFrom E.ModelTunnelProtection E.unmarshalTunnelProtection list x.kvdata
          x.Value)
    ∧ (∀ x ∈ (retrieveConfig.classify E list).VPP.IPSecSAs,
        E.DecodedFrom E.ModelSecurityAssociation E.unmarshalSecurityAssociation list x.kvdata
          x.Value)
    ∧ (∀ x ∈ (retrieveConfig.classify E list).VPP.IPSecSPDs,
        E.DecodedFrom E.ModelSecurityPolicyDatabase E.unmarshalSecurityPolicyDatabase list
          x.kvdata x.Value) := by
  induction list with
  | nil => simp [retrieveConfig.classify_nil, Config.zero]
  | cons item rest ih =>
    obtain ⟨s1, s2, s3, s4, s5, s6⟩ := retrieveConfig.step_zero_decodedFrom E item
    obtain ⟨i1, i2, i3, i4, i5, i6⟩ := ih
    have hhead : ∀ r ∈ [item], r ∈ item :: rest := by
      intro r hr
      rw [List.mem_singleton.mp hr]
      exact List.mem_cons_self _ _
    have htail : ∀ r ∈ rest, r ∈ item :: rest := fun r hr => List.mem_cons_of_mem _ hr
    rw [retrieveConfig.classify_cons]
    simp only [Config.append, List.mem_append]
    refine ⟨?_, ?_, ?_, ?_, ?_, ?_⟩ <;> rintro x (hx | hx)
    · exact Env.DecodedFrom.mono E _ _ _ _ hhead _ _ (s1 x hx)
    · exact Env.DecodedFrom.mono E _ _ _ _ htail _ _ (i1 x hx)
    · exact Env.DecodedFrom.mono E _ _ _ _ hhead _ _ (s2 x hx)
    · exact Env.DecodedFrom.mono E _ _ _ _ htail _ _ (i2 x hx)
    · exact Env.DecodedFrom.mono E _ _ _ _ hhead _ _ (s3 x hx)
    · exact Env.DecodedFrom.mono E _ _ _ _ htail _ _ (i3 x hx)
    · exact Env.DecodedFrom.mono E _ _ _ _ hhead _ _ (s4 x hx)
    · exact Env.DecodedFrom.mono E _ _ _ _ htail _ _ (i4 x hx)
    · exact Env.DecodedFrom.mono E _ _ _ _ hhead _ _ (s5 x hx)
    · exact Env.DecodedFrom.mono E _ _ _ _ htail _ _ (i5 x hx)
    · exact Env.DecodedFrom.mono E _ _ _ _ hhead _ _ (s6 x hx)
    · exact Env.DecodedFrom.mono E _ _ _ _ htail _ _ (i6 x hx)

/-! ## Further claims about `retrieveConfig` -/

/-- C14. Every typed record stored in the `Config` returned by `retrieveConfig` carries,
unchanged, the `Key`, raw `Value`, `Metadata` and `Origin` of a record of the dump, the one it
was decoded from: the key of that record resolves to the model of the sequence and its payload
decodes to the stored value. -/
theorem retrieveConfig_retains_record (E : Env) (handler : Handler) (out : String)
    (list : List kvdata) (hexec : handler.ExecCmd "agentctl" dumpArgs = .ok out)
    (hlist : E.unmarshalList out = .ok list) :
    ∃ c : Config, retrieveConfig E handler = (some c, none)
      ∧ (∀ x ∈ c.VPP.Interfaces,
          E.DecodedFrom E.vppModelInterface E.unmarshalVppInterface list x.kvdata x.Value)
      ∧ (∀ x ∈ c.Linux.Interfaces,
          E.DecodedFrom E.linuxModelInterface E.unmarshalLinuxInterface list x.kvdata x.Value)
      ∧ (∀ x ∈ c.VPP.L2XConnects,
          E.DecodedFrom E.ModelXConnectPair E.unmarshalXConnectPair list x.kvdata x.Value)
      ∧ (∀ x ∈ c.VPP.IPSecTunProtects,
          E.DecodedFrom E.ModelTunnelProtection E.unmarshalTunnelProtection list x.kvdata
            x.Value)
      ∧ (∀ x ∈ c.VPP.IPSecSAs,
          E.DecodedFrom E.ModelSecurityAssociation E.unmarshalSecurityAssociation list x.kvdata
            x.Value)
      ∧ (∀ x ∈ c.VPP.IPSecSPDs,
          E.DecodedFrom E.ModelSecurityPolicyDatabase E.unmarshalSecurityPolicyDatabase list
            x.kvdata x.Value) :=
  ⟨retrieveConfig.classify E list, retrieveConfig_of_list E handler out list hexec hlist,
    retrieveConfig.classify_decodedFrom E list⟩

/-- C14 at the sample dump. -/
theorem retrieveConfig_retains_record_witness :
    (sampleHandler sampleDumpText).ExecCmd "agentctl" dumpArgs = .ok sampleDumpText
      ∧ (sampleEnv sampleDump).unmarshalList sampleDumpText = .ok sampleDump
      ∧ ∃ c : Config,
          retrieveConfig (sampleEnv sampleDump) (sampleHandler sampleDumpText) = (some c, none)
          ∧ (∀ x ∈ c.VPP.Interfaces,
              (sampleEnv sampleDump).DecodedFrom (sampleEnv sampleDump).vppModelInterface
                (sampleEnv sampleDump).unmarshalVppInterface sampleDump x.kvdata x.Value)
          ∧ (∀ x ∈ c.Linux.Interfaces,
              (sampleEnv sampleDump).DecodedFrom (sampleEnv sampleDump).linuxModelInterface
                (sampleEnv sampleDump).unmarshalLinuxInterface sampleDump x.kvdata x.Value)
          ∧ (∀ x ∈ c.VPP.L2XConnects,
              (sampleEnv sampleDump).DecodedFrom (sampleEnv sampleDump).ModelXConnectPair
                (sampleEnv sampleDump).unmarshalXConnectPair sampleDump x.kvdata x.Value)
          ∧ (∀ x ∈ c.VPP.IPSecTunProtects,
              (sampleEnv sampleDump).DecodedFrom (sampleEnv sampleDump).ModelTunnelProtection
                (sampleEnv sampleDump).unmarshalTunnelProtection sampleDump x.kvdata x.Value)
          ∧ (∀ x ∈ c.VPP.IPSecSAs,
              (sampleEnv sampleDump).DecodedFrom (sampleEnv sampleDump).ModelSecurityAssociation
                (sampleEnv sampleDump).unmarshalSecurityAssociation sampleDump x.kvdata x.Value)
          ∧ (∀ x ∈ c.VPP.IPSecSPDs,
              (sampleEnv sampleDump).DecodedFrom
                (sampleEnv sampleDump).ModelSecurityPolicyDatabase
                (sampleEnv sampleDump).unmarshalSecurityPolicyDatabase sampleDump x.kvdata
                x.Value) :=
  ⟨rfl, rfl,
    retrieveConfig_retains_record (sampleEnv sampleDump) (sampleHandler sampleDumpText)
      sampleDumpText sampleDump rfl rfl⟩

/-- C15. For every dump, a record whose key resolves to a model whose name is none of the six
mapped model names is held by no sequence of the `Config`, whatever its payload, and
`retrieveConfig` returns no error. -/
theorem retrieveConfig_ignores_unmapped (E : Env) (handler : Handler) (out : String)
    (list : List kvdata) (hexec : handler.ExecCmd "agentctl" dumpArgs = .ok out)
    (hlist : E.unmarshalList out = .ok list) :
    ∃ c : Config, retrieveConfig E handler = (some c, none)
      ∧ ∀ (r : kvdata) (model : KnownModel), E.GetModelForKey r.Key = .ok model →
          model.Name ∉ E.mappedNames → ∀ s ∈ c.records, r ∉ s := by
  refine ⟨retrieveConfig.classify E list, retrieveConfig_of_list E handler out list hexec hlist,
    ?_⟩
  intro r model hmodel hname s hs hr
  obtain ⟨i1, i2, i3, i4, i5, i6⟩ := retrieveConfig.classify_decodedFrom E list
  have hkey : ∀ {α : Type} (m : KnownModel) (unmarshal : RawMessage → Except GoError (Option α))
      (kv : kvdata) (val : Option α), kv = r → E.DecodedFrom m unmarshal list kv val →
      m.Name ∈ E.mappedNames → False := by
    intro α m unmarshal kv val hkv hdec hmem
    obtain ⟨item, -, ⟨hk, -, -, -⟩, ⟨model2, hm2, hn2⟩, -⟩ := hdec
    rw [← hk, hkv, hmodel] at hm2
    cases hm2
    exact hname (hn2 ▸ hmem)
  simp only [Config.records, List.mem_cons, List.mem_singleton, List.not_mem_nil, or_false] at hs
  rcases hs with h | h | h | h | h | h <;> subst h <;>
    obtain ⟨x, hx, hxr⟩ := List.mem_map.mp hr
  · exact hkey _ _ _ _ hxr (i1 x hx) (by simp [Env.mappedNames])
  · exact hkey _ _ _ _ hxr (i2 x hx) (by simp [Env.mappedNames])
  · exact hkey _ _ _ _ hxr (i3 x hx) (by simp [Env.mappedNames])
  · exact hkey _ _ _ _ hxr (i4 x hx) (by simp [Env.mappedNames])
  · exact hkey _ _ _ _ hxr (i5 x hx) (by simp [Env.mappedNames])
  · exact hkey _ _ _ _ hxr (i6 x hx) (by simp [Env.mappedNames])

/-- C15 at a dump with a route record, whose model is registered but not mapped. -/
theorem retrieveConfig_ignores_unmapped_witness :
    (sampleHandler sampleDumpText).ExecCmd "agentctl" dumpArgs = .ok sampleDumpText
      ∧ (sampleEnv routeDump).unmarshalList sampleDumpText = .ok routeDump
      ∧ (sampleEnv routeDump).GetModelForKey recRoute1.Key = .ok { Name := "vpp.l3.route" }
      ∧ "vpp.l3.route" ∉ (sampleEnv routeDump).mappedNames
      ∧ ∃ c : Config,
          retrieveConfig (sampleEnv routeDump) (sampleHandler sampleDumpText) = (some c, none)
          ∧ ∀ (r : kvdata) (model : KnownModel),
              (sampleEnv routeDump).GetModelForKey r.Key = .ok model →
              model.Name ∉ (sampleEnv routeDump).mappedNames → ∀ s ∈ c.records, r ∉ s :=
  ⟨rfl, rfl, by decide, by decide,
    retrieveConfig_ignores_unmapped (sampleEnv routeDump) (sampleHandler sampleDumpText)
      sampleDumpText routeDump rfl rfl⟩

/-- C19. The classification pass of `retrieveConfig` is a list homomorphism: for all record
lists `a` and `b`, each of the six sequences obtained from `a ++ b` is the sequence obtained
from `a` followed by the sequence obtained from `b`; so what a record contributes, between any
records before and after it, is what it contributes alone. -/
theorem retrieveConfig_classify_append (E : Env) (a b : List kvdata) :
    ((retrieveConfig.classify E (a ++ b)).VPP.Interfaces
        = (retrieveConfig.classify E a).VPP.Interfaces
          ++ (retrieveConfig.classify E b).VPP.Interfaces
      ∧ (retrieveConfig.classify E (a ++ b)).Linux.Interfaces
        = (retrieveConfig.classify E a).Linux.Interfaces
          ++ (retrieveConfig.classify E b).Linux.Interfaces
      ∧ (retrieveConfig.classify E (a ++ b)).VPP.L2XConnects
        = (retrieveConfig.classify E a).VPP.L2XConnects
          ++ (retrieveConfig.classify E b).VPP.L2XConnects
      ∧ (retrieveConfig.classify E (a ++ b)).VPP.IPSecTunProtects
        = (retrieveConfig.classify E a).VPP.IPSecTunProtects
          ++ (retrieveConfig.classify E b).VPP.IPSecTunProtects
      ∧ (retrieveConfig.classify E (a ++ b)).VPP.IPSecSAs
        = (retrieveConfig.classify E a).VPP.IPSecSAs
          ++ (retrieveConfig.classify E b).VPP.IPSecSAs
      ∧ (retrieveConfig.classify E (a ++ b)).VPP.IPSecSPDs
        = (retrieveConfig.classify E a).VPP.IPSecSPDs
          ++ (retrieveConfig.classify E b).VPP.IPSecSPDs)
    ∧ (∀ item : kvdata,
        retrieveConfig.classify E (a ++ item :: b)
          = (retrieveConfig.classify E a).append
              ((retrieveConfig.classify E [item]).append (retrieveConfig.classify E b))) := by
  have happ : ∀ l1 l2 : List kvdata, retrieveConfig.classify E (l1 ++ l2)
      = (retrieveConfig.classify E l1).append (retrieveConfig.classify E l2) := by
    intro l1 l2
    show List.foldl (retrieveConfig.step E) Config.zero (l1 ++ l2) = _
    rw [List.foldl_append, retrieveConfig.foldl_step]
    rfl
  refine ⟨?_, ?_⟩
  · rw [happ a b]
    exact ⟨rfl, rfl, rfl, rfl, rfl, rfl⟩
  · intro item
    rw [happ a (item :: b)]
    have hcons : item :: b = [item] ++ b := rfl
    rw [hcons, happ [item] b]

/-! ## Error behaviour of the three extractors -/

theorem DumpLogsCLI_of_text (cli : CliExecutor) (text : String)
    (hrun : cli.RunCli "show log" = .ok text) :
    DumpLogsCLI cli = DumpLogsCLI (sampleCli text) := by
  simp [DumpLogsCLI, sampleCli, hrun]

/-- C16. Each of `GetVersionInfoCLI`, `GetUptimeCLI` and `DumpLogsCLI` returns an error if and
only if its `RunCli` call fails, and then returns that same error with a nil or zero value; for
every text `RunCli` returns it gives no error, and its value depends on the text alone: two
executors that return the same text give the same result. -/
theorem extractors_error_iff (intSize : Nat) (outOfRange : Float64 → Int) (cli : CliExecutor) :
    (((GetVersionInfoCLI intSize cli).2 ≠ none ↔
          ∃ err, cli.RunCli "show version verbose" = .error err)
      ∧ (∀ err, cli.RunCli "show version verbose" = .error err →
          GetVersionInfoCLI intSize cli = (none, some err))
      ∧ (∀ text (cli2 : CliExecutor), cli.RunCli "show version verbose" = .ok text →
          cli2.RunCli "show version verbose" = .ok text →
          (GetVersionInfoCLI intSize cli).2 = none
            ∧ GetVersionInfoCLI intSize cli = GetVersionInfoCLI intSize cli2))
    ∧ (((GetUptimeCLI outOfRange cli).2 ≠ none ↔ ∃ err, cli.RunCli "show clock" = .error err)
      ∧ (∀ err, cli.RunCli "show clock" = .error err →
          GetUptimeCLI outOfRange cli = (0, some err))
      ∧ (∀ text (cli2 : CliExecutor), cli.RunCli "show clock" = .ok text →
          cli2.RunCli "show clock" = .ok text →
          (GetUptimeCLI outOfRange cli).2 = none
            ∧ GetUptimeCLI outOfRange cli = GetUptimeCLI outOfRange cli2))
    ∧ (((DumpLogsCLI cli).2 ≠ none ↔ ∃ err, cli.RunCli "show log" = .error err)
      ∧ (∀ err, cli.RunCli "show log" = .error err → DumpLogsCLI cli = ([], some err))
      ∧ (∀ text (cli2 : CliExecutor), cli.RunCli "show log" = .ok text →
          cli2.RunCli "show log" = .ok text →
          (DumpLogsCLI cli).2 = none ∧ DumpLogsCLI cli = DumpLogsCLI cli2)) := by
  refine ⟨⟨?_, ?_, ?_⟩, ⟨?_, ?_, ?_⟩, ⟨?_, ?_, ?_⟩⟩
  · unfold GetVersionInfoCLI
    cases h : cli.RunCli "show version verbose" <;> simp
  · intro err h
    simp [GetVersionInfoCLI, h]
  · intro text cli2 h h2
    refine ⟨?_, ?_⟩
    · simp [GetVersionInfoCLI, h]
    · rw [GetVersionInfoCLI_of_text intSize cli text h,
        GetVersionInfoCLI_of_text intSize cli2 text h2]
  · unfold GetUptimeCLI
    cases h : cli.RunCli "show clock" <;> simp
  · intro err h
    simp [GetUptimeCLI, h]
  · intro text cli2 h h2
    refine ⟨?_, ?_⟩
    · simp [GetUptimeCLI, h]
    · rw [GetUptimeCLI_of_text outOfRange cli text h,
        GetUptimeCLI_of_text outOfRange cli2 text h2]
  · unfold DumpLogsCLI
    cases h : cli.RunCli "show log" <;> simp
  · intro err h
    simp [DumpLogsCLI, h]
  · intro text cli2 h h2
    refine ⟨?_, ?_⟩
    · simp [DumpLogsCLI, h]
    · rw [DumpLogsCLI_of_text cli text h, DumpLogsCLI_of_text cli2 text h2]

/-! ## Records with the payload `null` -/

/-- C17, evaluated. On the dump of the scenario, one loopback interface `loop1` and one
cross-connect receiving on it, `HasVppInterfaceType` is true for the loopback type and
`FindL2XconnFor` returns the cross-connect. With a `null` interface record ahead of the
interface, the dump still holds the decodable interface and cross-connect, yet
`HasVppInterfaceType` panics; with a `null` cross-connect record ahead of the cross-connect,
`FindL2XconnFor` panics. -/
theorem retrieveConfig_scenario_null_record :
    retrieveConfig (sampleEnv loopDump) (sampleHandler sampleDumpText) = (some loopConfig, none)
      ∧ Config.HasVppInterfaceType (some loopConfig) 2 = .ok true
      ∧ FindL2XconnFor "loop1" loopConfig.VPP.L2XConnects = .ok (some xconnLoop1)
      ∧ (recLoop1 ∈ nullDump ∧ recXconn1 ∈ nullDump)
      ∧ (sampleEnv nullDump).unmarshalVppInterface recLoop1.Value
          = .ok (some { Name := "loop1", Typ := 2 })
      ∧ (sampleEnv nullDump).unmarshalXConnectPair recXconn1.Value
          = .ok (some { ReceiveInterface := "loop1", TransmitInterface := "memif1" })
      ∧ retrieveConfig (sampleEnv nullDump) (sampleHandler sampleDumpText)
          = (some nullConfig, none)
      ∧ Config.HasVppInterfaceType (some nullConfig) 2 = .error .nilPointerDereference
      ∧ (recLoop1 ∈ nullXconnDump ∧ recXconn1 ∈ nullXconnDump)
      ∧ retrieveConfig (sampleEnv nullXconnDump) (sampleHandler sampleDumpText)
          = (some nullXconnConfig, none)
      ∧ FindL2XconnFor "loop1" nullXconnConfig.VPP.L2XConnects
          = .error .nilPointerDereference := by
  decide

/-- C18, evaluated. The payload `null` decodes without error to a nil pointer, and
`retrieveConfig` stores a typed record with a nil `Value` for each such record of the dump; on
the returned `Config` each of `HasVppInterfaceType`, `FindL2XconnFor` and
`FindIPSecTunProtectFor` dereferences the nil `Value` and panics. -/
theorem retrieveConfig_stores_nil_value :
    (sampleEnv allNullDump).unmarshalVppInterface "null" = .ok none
      ∧ (sampleEnv allNullDump).unmarshalXConnectPair "null" = .ok none
      ∧ (sampleEnv allNullDump).unmarshalTunnelProtection "null" = .ok none
      ∧ retrieveConfig (sampleEnv allNullDump) (sampleHandler sampleDumpText)
          = (some allNullConfig, none)
      ∧ (∃ x ∈ allNullConfig.VPP.Interfaces, x.Value = none)
      ∧ Config.HasVppInterfaceType (some allNullConfig) 2 = .error .nilPointerDereference
      ∧ FindL2XconnFor "loop1" allNullConfig.VPP.L2XConnects = .error .nilPointerDereference
      ∧ FindIPSecTunProtectFor "ipip0" allNullConfig.VPP.IPSecTunProtects
          = .error .nilPointerDereference := by
  refine ⟨by decide, by decide, by decide, by decide, ?_, by decide, by decide, by decide⟩
  exact ⟨{ kvdata := recNullIface, Value := none }, by decide, rfl⟩

end VppProbe
